import Mathlib

/-!
# Verification of the GLA timetable generator core

A shallow embedding of the scheduling core of the repository
(`models.py`, `constraints.py`, `generator.py`, `config.py`, and the
seed handling of `main.py`) together with proofs about it.

Conventions of the embedding:
* Python objects become Lean structures; entity equality (defined in
  Python via `__eq__`/`__hash__` on the identity fields) becomes an
  explicit boolean key comparison on those fields.
* Python's mutable generator state (`self.assignments`,
  `self.generation_stats`) becomes an explicit `GenState` value
  threaded through the recursion.
* `random.shuffle` becomes an abstract state-threading function
  `shuffle : σ → List ClassAssignment → List ClassAssignment × σ`;
  the fact that shuffling permutes its input is a hypothesis where a
  proof needs it.
* Python dicts become association lists; a dict built by iterated
  insertion is looked up by "latest binding wins".
-/

namespace Timetable

/-- `models.py`, class `TimeSlot`: day, period and display times. -/
structure TimeSlot where
  day : String
  period : Nat
  start_time : String
  end_time : String
deriving DecidableEq

/-- `TimeSlot.__eq__` / `__hash__`: identity is `(day, period)` only. -/
def TimeSlot.eqk (a b : TimeSlot) : Bool :=
  a.day == b.day && a.period == b.period

/-- `TimeSlot.__str__`: `f"{day} Period {period} ({start_time}-{end_time})"`. -/
def TimeSlot.toStr (s : TimeSlot) : String :=
  s.day ++ " Period " ++ toString s.period ++ " (" ++ s.start_time ++ "-" ++ s.end_time ++ ")"

/-- `models.py`, class `Room`. -/
structure Room where
  room_id : String
  name : String
  capacity : Nat
  room_type : String
deriving DecidableEq

/-- `Room.__eq__`: identity by `room_id`. -/
def Room.eqk (a b : Room) : Bool := a.room_id == b.room_id

/-- `models.py`, class `Teacher`.  `unavailable_slots` is a set of
`TimeSlot`; we carry it as a list whose membership test uses the
`TimeSlot` identity `(day, period)`. -/
structure Teacher where
  teacher_id : String
  name : String
  department : String
  specializations : List String
  unavailable_slots : List TimeSlot
deriving DecidableEq

/-- `Teacher.is_available`: `time_slot not in self.unavailable_slots`. -/
def Teacher.is_available (t : Teacher) (slot : TimeSlot) : Bool :=
  ! t.unavailable_slots.any (fun u => TimeSlot.eqk u slot)

/-- `Teacher.__eq__`: identity by `teacher_id`. -/
def Teacher.eqk (a b : Teacher) : Bool := a.teacher_id == b.teacher_id

/-- `models.py`, class `Course`. -/
structure Course where
  course_id : String
  name : String
  department : String
  hours_per_week : Nat
  course_type : String
deriving DecidableEq

/-- `models.py`, class `Section` (the field `section` of Python
assignments is called `sec` here because `section` is a Lean keyword). -/
structure Section where
  section_id : String
  name : String
  department : String
  semester : Nat
  student_count : Nat
deriving DecidableEq

/-- `Section.__eq__`: identity by `section_id`. -/
def Section.eqk (a b : Section) : Bool := a.section_id == b.section_id

/-- `models.py`, class `ClassAssignment`: a committed scheduling
decision.  `sec` models the Python attribute `section`. -/
structure ClassAssignment where
  course : Course
  sec : Section
  teacher : Teacher
  room : Room
  time_slot : TimeSlot
deriving DecidableEq

/-! ## Constraint validator (`constraints.py`, class `ConstraintValidator`) -/

/-- One entry of the validator's `conflicts` list.  The Python code
appends formatted strings; we keep the category and the data the
message carries as a structured value, one constructor per message
shape. -/
inductive Violation where
  | teacherConflict (teacherName : String) (slot : TimeSlot)
  | roomConflict (roomName : String) (slot : TimeSlot)
  | sectionConflict (sectionName : String) (slot : TimeSlot)
  | capacityConflict (roomName : String) (capacity : Nat) (sectionName : String) (students : Nat)
  | availabilityConflict (teacherName : String) (slot : TimeSlot)
  | roomTypeConflict (courseName : String) (roomName : String) (roomType : String)
deriving DecidableEq

/-- `ConstraintValidator._check_teacher_conflict`: one conflict entry
per already-committed assignment with the same teacher and slot. -/
def check_teacher_conflict (a : ClassAssignment) (existing : List ClassAssignment) :
    List Violation :=
  existing.filterMap (fun e =>
    if Teacher.eqk e.teacher a.teacher && TimeSlot.eqk e.time_slot a.time_slot then
      some (.teacherConflict a.teacher.name a.time_slot)
    else none)

/-- `ConstraintValidator._check_room_conflict`. -/
def check_room_conflict (a : ClassAssignment) (existing : List ClassAssignment) :
    List Violation :=
  existing.filterMap (fun e =>
    if Room.eqk e.room a.room && TimeSlot.eqk e.time_slot a.time_slot then
      some (.roomConflict a.room.name a.time_slot)
    else none)

/-- `ConstraintValidator._check_section_conflict`. -/
def check_section_conflict (a : ClassAssignment) (existing : List ClassAssignment) :
    List Violation :=
  existing.filterMap (fun e =>
    if Section.eqk e.sec a.sec && TimeSlot.eqk e.time_slot a.time_slot then
      some (.sectionConflict a.sec.name a.time_slot)
    else none)

/-- `ConstraintValidator._check_room_capacity`:
`room.capacity < section.student_count` is a violation. -/
def check_room_capacity (a : ClassAssignment) : List Violation :=
  if a.room.capacity < a.sec.student_count then
    [.capacityConflict a.room.name a.room.capacity a.sec.name a.sec.student_count]
  else []

/-- `ConstraintValidator._check_teacher_availability`. -/
def check_teacher_availability (a : ClassAssignment) : List Violation :=
  if ! a.teacher.is_available a.time_slot then
    [.availabilityConflict a.teacher.name a.time_slot]
  else []

/-- `ConstraintValidator._check_room_type_compatibility`: a lab course
in a non-lab room is a violation (nothing restricts non-lab courses). -/
def check_room_type_compatibility (a : ClassAssignment) : List Violation :=
  if a.course.course_type == "lab" && a.room.room_type != "lab" then
    [.roomTypeConflict a.course.name a.room.name a.room.room_type]
  else []

/-- `ConstraintValidator.validate_assignment`: reset the conflict list,
run all six checks (each appends its findings), and return
`(len(conflicts) == 0, conflicts)`. -/
def validate_assignment (a : ClassAssignment) (existing : List ClassAssignment) :
    Bool × List Violation :=
  let conflicts :=
    check_teacher_conflict a existing ++
    check_room_conflict a existing ++
    check_section_conflict a existing ++
    check_room_capacity a ++
    check_teacher_availability a ++
    check_room_type_compatibility a
  (conflicts.length == 0, conflicts)

/-! ## Conflict detector (`constraints.py`, class `ConflictDetector`) -/

/-- Entry of `conflicts['teacher_conflicts']`:
`{'teacher': name, 'time_slot': str(key), 'courses': [prev, cur]}`. -/
structure TeacherConflictEntry where
  teacher : String
  time_slot : String
  courses : List String
deriving DecidableEq

/-- Entry of `conflicts['room_conflicts']`. -/
structure RoomConflictEntry where
  room : String
  time_slot : String
  courses : List String
deriving DecidableEq

/-- Entry of `conflicts['section_conflicts']` (`sec` models the dict
key `'section'`). -/
structure SectionConflictEntry where
  sec : String
  time_slot : String
  courses : List String
deriving DecidableEq

/-- Entry of `conflicts['capacity_issues']`. -/
structure CapacityIssueEntry where
  room : String
  capacity : Nat
  sec : String
  student_count : Nat
  time_slot : String
deriving DecidableEq

/-- Entry of `conflicts['availability_issues']`. -/
structure AvailabilityIssueEntry where
  teacher : String
  time_slot : String
deriving DecidableEq

/-- Entry of `conflicts['room_type_issues']`. -/
structure RoomTypeIssueEntry where
  course : String
  room : String
  room_type : String
  required_type : String
deriving DecidableEq

/-- The `conflicts` dictionary returned by `find_all_conflicts`. -/
structure ConflictReport where
  teacher_conflicts : List TeacherConflictEntry
  room_conflicts : List RoomConflictEntry
  section_conflicts : List SectionConflictEntry
  capacity_issues : List CapacityIssueEntry
  availability_issues : List AvailabilityIssueEntry
  room_type_issues : List RoomTypeIssueEntry
deriving DecidableEq

/-- Key of a slot inside the schedule dictionaries: `TimeSlot` hashes
and compares by `(day, period)`. -/
def slotKey (s : TimeSlot) : String × Nat := (s.day, s.period)

/-- The nested Python dicts `teacher_schedule[teacher][slot]` (and the
room/section analogues) flattened to an association list keyed by
`(resource identity, slot identity)`; the entity classes hash and
compare by their id fields.  New bindings are consed in front, lookup
takes the first match, which is exactly "latest insertion wins". -/
abbrev Sched := List ((String × String × Nat) × ClassAssignment)

/-- Dict membership / lookup with latest-binding-wins semantics. -/
def schedLookup (sched : Sched) (k : String × String × Nat) : Option ClassAssignment :=
  (sched.find? (fun e => e.1 == k)).map (·.2)

/-- One double-booking tracker step, shared shape of the three
`# Track ... schedules` blocks of `find_all_conflicts`: if the key is
already booked, record a conflict entry built from the stored occupant
and the current assignment; in either case store the current
assignment under the key. -/
def trackStep {E : Type} (mk : ClassAssignment → ClassAssignment → E)
    (k : String × String × Nat) (a : ClassAssignment)
    (sched : Sched) (entries : List E) : Sched × List E :=
  match schedLookup sched k with
  | some prev => ((k, a) :: sched, entries ++ [mk prev a])
  | none => ((k, a) :: sched, entries)

/-- The conflict entry recorded on a teacher double booking. -/
def mkTeacherEntry (prev a : ClassAssignment) : TeacherConflictEntry :=
  { teacher := a.teacher.name
    time_slot := a.time_slot.toStr
    courses := [prev.course.name, a.course.name] }

/-- The conflict entry recorded on a room double booking. -/
def mkRoomEntry (prev a : ClassAssignment) : RoomConflictEntry :=
  { room := a.room.name
    time_slot := a.time_slot.toStr
    courses := [prev.course.name, a.course.name] }

/-- The conflict entry recorded on a section double booking. -/
def mkSectionEntry (prev a : ClassAssignment) : SectionConflictEntry :=
  { sec := a.sec.name
    time_slot := a.time_slot.toStr
    courses := [prev.course.name, a.course.name] }

/-- Internal state of the single scan of `find_all_conflicts`. -/
structure DetectState where
  report : ConflictReport
  teacher_schedule : Sched
  room_schedule : Sched
  section_schedule : Sched

/-- The body of the `for assignment in assignments` loop of
`find_all_conflicts`: track the three schedules, then the three
per-assignment checks (capacity, availability, room type). -/
def detect_step (st : DetectState) (a : ClassAssignment) : DetectState :=
  let tkey := (a.teacher.teacher_id, slotKey a.time_slot)
  let (tsched, tconf) := trackStep mkTeacherEntry tkey a st.teacher_schedule
    st.report.teacher_conflicts
  let rkey := (a.room.room_id, slotKey a.time_slot)
  let (rsched, rconf) := trackStep mkRoomEntry rkey a st.room_schedule
    st.report.room_conflicts
  let skey := (a.sec.section_id, slotKey a.time_slot)
  let (ssched, sconf) := trackStep mkSectionEntry skey a st.section_schedule
    st.report.section_conflicts
  let cap := if a.room.capacity < a.sec.student_count then
      st.report.capacity_issues ++
        [{ room := a.room.name, capacity := a.room.capacity, sec := a.sec.name,
           student_count := a.sec.student_count, time_slot := a.time_slot.toStr }]
    else st.report.capacity_issues
  let avail := if ! a.teacher.is_available a.time_slot then
      st.report.availability_issues ++
        [{ teacher := a.teacher.name, time_slot := a.time_slot.toStr }]
    else st.report.availability_issues
  let rty := if a.course.course_type == "lab" && a.room.room_type != "lab" then
      st.report.room_type_issues ++
        [{ course := a.course.name, room := a.room.name,
           room_type := a.room.room_type, required_type := "lab" }]
    else st.report.room_type_issues
  { report := { teacher_conflicts := tconf, room_conflicts := rconf,
                section_conflicts := sconf, capacity_issues := cap,
                availability_issues := avail, room_type_issues := rty }
    teacher_schedule := tsched
    room_schedule := rsched
    section_schedule := ssched }

/-- The empty report all lists start from. -/
def emptyReport : ConflictReport :=
  { teacher_conflicts := [], room_conflicts := [], section_conflicts := [],
    capacity_issues := [], availability_issues := [], room_type_issues := [] }

/-- `ConflictDetector.find_all_conflicts`: a single scan of the
assignment list building the three lookup structures and the
categorized report. -/
def find_all_conflicts (assignments : List ClassAssignment) : ConflictReport :=
  (assignments.foldl detect_step
    { report := emptyReport, teacher_schedule := [], room_schedule := [],
      section_schedule := [] }).report

/-- `ConflictDetector.count_conflicts`: total length of all six lists. -/
def count_conflicts (r : ConflictReport) : Nat :=
  r.teacher_conflicts.length + r.room_conflicts.length + r.section_conflicts.length +
  r.capacity_issues.length + r.availability_issues.length + r.room_type_issues.length

/-! ## Configuration (`config.py`, class `TimetableConfig`) -/

/-- Lookup in a Python dict built by iterated insertion: the latest
binding wins. -/
def lookupLast {α : Type} (p : α → Bool) (xs : List α) : Option α :=
  (xs.filter p).getLast?

/-- The slice of `TimetableConfig` the scheduling core reads: the day
names, the period count, and the period → (start, end) dict. -/
structure TimetableConfig where
  days : List String
  periods_per_day : Nat
  time_slots : List (Nat × String × String)

/-- `TimetableConfig.get_all_time_slots`: the slot universe, days ×
periods `1..periods_per_day` that appear in the `time_slots` dict. -/
def get_all_time_slots (c : TimetableConfig) : List TimeSlot :=
  c.days.flatMap (fun day =>
    (List.range c.periods_per_day).filterMap (fun p =>
      let period := p + 1
      match lookupLast (fun kv => kv.1 == period) c.time_slots with
      | some (_, s, e) => some ⟨day, period, s, e⟩
      | none => none))

/-! ## Generator (`generator.py`, class `TimetableGenerator`) -/

/-- One scheduling request, the dict
`{'course': c, 'section': s, 'teacher': t, 'instance': i}` built by
`_build_scheduling_requests` (`sec` models `'section'`, `inst` models
`'instance'`). -/
structure ScheduleRequest where
  course : Course
  sec : Section
  teacher : Teacher
  inst : Nat
deriving DecidableEq

/-- Lookup in a Python dict comprehension `{key(x): x for x in xs}`:
the last element with the id wins. -/
def lookupById {α : Type} (key : α → String) (xs : List α) (id : String) : Option α :=
  lookupLast (fun x => key x == id) xs

/-- `TimetableGenerator._build_scheduling_requests`: for each entry of
the course-assignment mapping resolve the course, section and teacher;
an unresolved id yields a printed warning (returned here as the second
component) and skips the entry; a resolved entry expands into
`hours_per_week` requests with instance indices `1..hours_per_week`. -/
def build_scheduling_requests (courses : List Course) (sections : List Section)
    (teachers : List Teacher)
    (course_assignments : List ((String × String) × String)) :
    List ScheduleRequest × List String :=
  course_assignments.foldl (fun acc entry =>
    let course_id := entry.1.1
    let section_id := entry.1.2
    let teacher_id := entry.2
    match lookupById Course.course_id courses course_id with
    | none => (acc.1, acc.2 ++ ["Warning: Course " ++ course_id ++ " not found"])
    | some course =>
      match lookupById Section.section_id sections section_id with
      | none => (acc.1, acc.2 ++ ["Warning: Section " ++ section_id ++ " not found"])
      | some s =>
        match lookupById Teacher.teacher_id teachers teacher_id with
        | none => (acc.1, acc.2 ++ ["Warning: Teacher " ++ teacher_id ++ " not found"])
        | some teacher =>
          (acc.1 ++ (List.range course.hours_per_week).map
            (fun i => ⟨course, s, teacher, i + 1⟩), acc.2))
    ([], [])

/-- Stable insertion of `x` into an already sorted list: `x` goes in
front of the first element not strictly below it, so elements with
equal keys keep their original relative order. -/
def insortBy {α : Type} (lt : α → α → Bool) (x : α) : List α → List α
  | [] => [x]
  | y :: ys => if lt y x then y :: insortBy lt x ys else x :: y :: ys

/-- Stable ascending sort, the behaviour of Python's `sorted` /
`list.sort` with a key function (both are stable). -/
def sortByKey {α : Type} (lt : α → α → Bool) (l : List α) : List α :=
  l.foldr (insortBy lt) []

/-- The `priority_key` of `_prioritize_requests`:
`(lab_priority, -hours_per_week, department)` compared
lexicographically. -/
def priorityLt (a b : ScheduleRequest) : Bool :=
  let la : Nat := if a.course.course_type == "lab" then 0 else 1
  let lb : Nat := if b.course.course_type == "lab" then 0 else 1
  let ha : Int := -(a.course.hours_per_week : Int)
  let hb : Int := -(b.course.hours_per_week : Int)
  la < lb || (la == lb && (ha < hb || (ha == hb && a.sec.department < b.sec.department)))

/-- `TimetableGenerator._prioritize_requests`: stable sort by
`priority_key`. -/
def prioritize_requests (requests : List ScheduleRequest) : List ScheduleRequest :=
  sortByKey priorityLt requests

/-- `TimetableGenerator._filter_suitable_rooms`: drop rooms that are
too small, drop non-lab rooms for lab courses, then sort ascending by
slack `capacity - student_count`. -/
def filter_suitable_rooms (course : Course) (s : Section) (rooms : List Room) :
    List Room :=
  let suitable := rooms.filter (fun room =>
    ! (room.capacity < s.student_count) &&
    ! (course.course_type == "lab" && room.room_type != "lab"))
  sortByKey (fun r1 r2 =>
    (r1.capacity : Int) - (s.student_count : Int) <
      (r2.capacity : Int) - (s.student_count : Int)) suitable

/-- `TimetableGenerator._filter_available_slots`. -/
def filter_available_slots (teacher : Teacher) (all_slots : List TimeSlot) :
    List TimeSlot :=
  all_slots.filter (fun slot => teacher.is_available slot)

/-- `TimetableGenerator._get_possible_assignments`: cross product of
suitable rooms × available slots, then `random.shuffle`.  The shuffle
is the abstract state-threading function `shuffle`; that it permutes
its input is assumed where needed. -/
def get_possible_assignments {σ : Type}
    (shuffle : σ → List ClassAssignment → List ClassAssignment × σ)
    (req : ScheduleRequest) (rooms : List Room) (all_slots : List TimeSlot)
    (rng : σ) : List ClassAssignment × σ :=
  let suitable_rooms := filter_suitable_rooms req.course req.sec rooms
  let available_slots := filter_available_slots req.teacher all_slots
  let assignments := suitable_rooms.flatMap (fun room =>
    available_slots.map (fun slot =>
      ⟨req.course, req.sec, req.teacher, room, slot⟩))
  shuffle rng assignments

/-- The generator's mutable state: `self.assignments`, the
`generation_stats` counters, and the state of the pseudo-random
source consumed by `random.shuffle`. -/
structure GenState (σ : Type) where
  assignments : List ClassAssignment
  attempts : Nat
  backtracks : Nat
  conflicts_resolved : Nat
  rng : σ
deriving DecidableEq

/-- The `for assignment in possible_assignments` loop of
`_backtrack_schedule`: validate each candidate against the committed
list; on success commit (append) and recurse via `recurse`; if the
recursive call fails, undo the commitment (pop the last element),
count a backtrack, and move on to the next candidate; if the
candidates run out, report failure. -/
def try_candidates {σ : Type} (recurse : GenState σ → Bool × GenState σ) :
    List ClassAssignment → GenState σ → Bool × GenState σ
  | [], st => (false, st)
  | a :: rest, st =>
    let v := validate_assignment a st.assignments
    if v.1 then
      let st1 : GenState σ := { st with assignments := st.assignments ++ [a] }
      let r := recurse st1
      if r.1 then r
      else
        let st3 : GenState σ := { r.2 with
          assignments := r.2.assignments.dropLast,
          backtracks := r.2.backtracks + 1 }
        try_candidates recurse rest st3
    else try_candidates recurse rest st

/-- `TimetableGenerator._backtrack_schedule`, with the request index
replaced by the list of still-unscheduled requests (`pending` stands
for `requests[index:]`): all requests scheduled is success; an attempt
counter at or past `max_attempts` is failure; otherwise count the
visit, generate the candidates for the current request and run the
candidate loop, recursing on the remaining requests. -/
def backtrack_schedule {σ : Type}
    (shuffle : σ → List ClassAssignment → List ClassAssignment × σ)
    (rooms : List Room) (all_slots : List TimeSlot) (max_attempts : Nat) :
    List ScheduleRequest → GenState σ → Bool × GenState σ
  | [], st => (true, st)
  | req :: pending, st =>
    if max_attempts ≤ st.attempts then (false, st)
    else
      let st1 : GenState σ := { st with attempts := st.attempts + 1 }
      let c := get_possible_assignments shuffle req rooms all_slots st1.rng
      let st2 : GenState σ := { st1 with rng := c.2 }
      try_candidates
        (fun s => backtrack_schedule shuffle rooms all_slots max_attempts pending s)
        c.1 st2

/-- `TimetableGenerator._schedule_requests`. -/
def schedule_requests {σ : Type}
    (shuffle : σ → List ClassAssignment → List ClassAssignment × σ)
    (requests : List ScheduleRequest) (rooms : List Room)
    (all_slots : List TimeSlot) (max_attempts : Nat) (st : GenState σ) :
    Bool × GenState σ :=
  backtrack_schedule shuffle rooms all_slots max_attempts requests st

/-- `TimetableGenerator.generate`: reset the state, build and
prioritize the requests, derive the slot universe, and run the search
with the default attempt budget of 10000 (`generate` calls
`_schedule_requests` without overriding its default).  Success returns
the committed assignment list, failure returns `None`; the final
state (statistics and committed list) is returned alongside. -/
def generate {σ : Type}
    (shuffle : σ → List ClassAssignment → List ClassAssignment × σ)
    (config : TimetableConfig) (courses : List Course) (sections : List Section)
    (teachers : List Teacher) (rooms : List Room)
    (course_assignments : List ((String × String) × String)) (rng : σ) :
    Option (List ClassAssignment) × GenState σ :=
  let st0 : GenState σ :=
    { assignments := [], attempts := 0, backtracks := 0,
      conflicts_resolved := 0, rng := rng }
  let built := build_scheduling_requests courses sections teachers course_assignments
  let requests := prioritize_requests built.1
  let all_slots := get_all_time_slots config
  let r := schedule_requests shuffle requests rooms all_slots 10000 st0
  if r.1 then (some r.2.assignments, r.2) else (none, r.2)

/-! ## Seed handling (`main.py`) -/

/-- `main.py`: `if args.seed: random.seed(args.seed)`.  Python
truthiness makes both `None` and `0` skip the seeding, so a seed of
`0` is never applied. -/
def applied_seed (seed : Option Int) : Option Int :=
  match seed with
  | some s => if s = 0 then none else some s
  | none => none

/-- The pseudo-random state the generation run starts from: the seeded
state when `random.seed` was called, otherwise the ambient state of
the process-global `random` module. -/
def main_rng {σ : Type} (seedArg : Option Int) (seedState : Int → σ) (ambient : σ) : σ :=
  match applied_seed seedArg with
  | some s => seedState s
  | none => ambient

/-- A generation run as `main.py` performs it: apply the seed argument
(with Python truthiness), then call `generate`. -/
def main_generate {σ : Type}
    (shuffle : σ → List ClassAssignment → List ClassAssignment × σ)
    (seedArg : Option Int) (seedState : Int → σ) (ambient : σ)
    (config : TimetableConfig) (courses : List Course) (sections : List Section)
    (teachers : List Teacher) (rooms : List Room)
    (course_assignments : List ((String × String) × String)) :
    Option (List ClassAssignment) × GenState σ :=
  generate shuffle config courses sections teachers rooms course_assignments
    (main_rng seedArg seedState ambient)

/-! ## Validator characterization -/

/-- The boolean clash test of `_check_teacher_conflict`'s loop body. -/
def teacherClash (a e : ClassAssignment) : Bool :=
  Teacher.eqk e.teacher a.teacher && TimeSlot.eqk e.time_slot a.time_slot

/-- The boolean clash test of `_check_room_conflict`'s loop body. -/
def roomClash (a e : ClassAssignment) : Bool :=
  Room.eqk e.room a.room && TimeSlot.eqk e.time_slot a.time_slot

/-- The boolean clash test of `_check_section_conflict`'s loop body. -/
def sectionClash (a e : ClassAssignment) : Bool :=
  Section.eqk e.sec a.sec && TimeSlot.eqk e.time_slot a.time_slot

/-- Category tests on entries of the validator's conflict list, one
per kind of message. -/
def isTeacherViolation : Violation → Bool
  | .teacherConflict _ _ => true
  | _ => false

def isRoomViolation : Violation → Bool
  | .roomConflict _ _ => true
  | _ => false

def isSectionViolation : Violation → Bool
  | .sectionConflict _ _ => true
  | _ => false

def isCapacityViolation : Violation → Bool
  | .capacityConflict _ _ _ _ => true
  | _ => false

def isAvailabilityViolation : Violation → Bool
  | .availabilityConflict _ _ => true
  | _ => false

def isRoomTypeViolation : Violation → Bool
  | .roomTypeConflict _ _ _ => true
  | _ => false

/-! ## Invariant predicates -/

/-- The three pairwise hard invariants between two committed
assignments (`x` committed before `y`): no shared (teacher, slot), no
shared (room, slot), no shared (section, slot). -/
def noPairConflict (x y : ClassAssignment) : Bool :=
  !(Teacher.eqk x.teacher y.teacher && TimeSlot.eqk x.time_slot y.time_slot) &&
  !(Room.eqk x.room y.room && TimeSlot.eqk x.time_slot y.time_slot) &&
  !(Section.eqk x.sec y.sec && TimeSlot.eqk x.time_slot y.time_slot)

/-- The three per-assignment hard invariants: room capacity, teacher
availability, lab room for lab courses. -/
def assignmentOk (a : ClassAssignment) : Bool :=
  decide (a.sec.student_count ≤ a.room.capacity) &&
  a.teacher.is_available a.time_slot &&
  (a.course.course_type != "lab" || a.room.room_type == "lab")

/-- All six hard invariants over a committed assignment list. -/
def Good (L : List ClassAssignment) : Prop :=
  L.Pairwise (fun x y => noPairConflict x y = true) ∧ ∀ a ∈ L, assignmentOk a = true

/-- The lists the generator can ever build: each element was accepted
by the validator against everything committed before it. -/
inductive ValidBuilt : List ClassAssignment → Prop where
  | nil : ValidBuilt []
  | snoc {L : List ClassAssignment} {a : ClassAssignment} :
      ValidBuilt L → (validate_assignment a L).1 = true → ValidBuilt (L ++ [a])

/-! ## Detector keys and the generic double-booking tracker -/

/-- The (teacher, slot) dictionary key of an assignment inside
`find_all_conflicts`. -/
def teacherKey (a : ClassAssignment) : String × String × Nat :=
  (a.teacher.teacher_id, slotKey a.time_slot)

/-- The (room, slot) dictionary key. -/
def roomKey (a : ClassAssignment) : String × String × Nat :=
  (a.room.room_id, slotKey a.time_slot)

/-- The (section, slot) dictionary key. -/
def sectionKey (a : ClassAssignment) : String × String × Nat :=
  (a.sec.section_id, slotKey a.time_slot)

/-- The double-booking tracker of one category of
`find_all_conflicts`, run over the whole list: repeated `trackStep`. -/
def trackList {E : Type} (key : ClassAssignment → String × String × Nat)
    (mk : ClassAssignment → ClassAssignment → E) :
    List ClassAssignment → Sched → List E → Sched × List E
  | [], sched, out => (sched, out)
  | a :: rest, sched, out =>
    let p := trackStep mk (key a) a sched out
    trackList key mk rest p.1 p.2

/-! ## Room filter predicate (for stating candidate-generation facts) -/

/-- What `_filter_suitable_rooms` actually keeps: rooms with enough
capacity such that lab courses get lab rooms.  (Non-lab courses may
still get lab rooms — the filter is one-directional.) -/
def suitableRoom (course : Course) (s : Section) (room : Room) : Bool :=
  decide (s.student_count ≤ room.capacity) &&
  (course.course_type != "lab" || room.room_type == "lab")

/-! ## Request-building, compositional form -/

/-- The resolution of one mapping entry, mirroring the three
`not in`-checks of `_build_scheduling_requests` in order. -/
def resolve_entry (courses : List Course) (sections : List Section)
    (teachers : List Teacher) (entry : (String × String) × String) :
    Option (Course × Section × Teacher) :=
  match lookupById Course.course_id courses entry.1.1 with
  | none => none
  | some course =>
    match lookupById Section.section_id sections entry.1.2 with
    | none => none
    | some s =>
      match lookupById Teacher.teacher_id teachers entry.2 with
      | none => none
      | some teacher => some (course, s, teacher)

/-- The requests one mapping entry contributes. -/
def entry_requests (courses : List Course) (sections : List Section)
    (teachers : List Teacher) (entry : (String × String) × String) :
    List ScheduleRequest :=
  match resolve_entry courses sections teachers entry with
  | some (course, s, teacher) =>
    (List.range course.hours_per_week).map (fun i => ⟨course, s, teacher, i + 1⟩)
  | none => []

/-- The warnings one mapping entry contributes. -/
def entry_warnings (courses : List Course) (sections : List Section)
    (teachers : List Teacher) (entry : (String × String) × String) : List String :=
  match lookupById Course.course_id courses entry.1.1 with
  | none => ["Warning: Course " ++ entry.1.1 ++ " not found"]
  | some _ =>
    match lookupById Section.section_id sections entry.1.2 with
    | none => ["Warning: Section " ++ entry.1.2 ++ " not found"]
    | some _ =>
      match lookupById Teacher.teacher_id teachers entry.2 with
      | none => ["Warning: Teacher " ++ entry.2 ++ " not found"]
      | some _ => []

/-! ## Concrete demonstration inputs (used by witness theorems) -/

/-- A shuffle that does nothing: one admissible behaviour of
`random.shuffle` (every permutation is). -/
def idShuffle : Unit → List ClassAssignment → List ClassAssignment × Unit :=
  fun u l => (l, u)

/-- A shuffle family with an observable state: state `0` keeps the
order, any other state reverses it. -/
def natShuffle : Nat → List ClassAssignment → List ClassAssignment × Nat :=
  fun n l => (if n == 0 then l else l.reverse, n)

def demoCourse : Course := ⟨"C1", "Algorithms", "CS", 1, "theory"⟩

def demoSection : Section := ⟨"S1", "CS-A", "CS", 1, 10⟩

def demoTeacher : Teacher := ⟨"T1", "Alice", "CS", [], []⟩

def demoRoom : Room := ⟨"R1", "Room 1", 10, "classroom"⟩

def demoSmallRoom : Room := ⟨"R2", "Room 2", 5, "classroom"⟩

def demoLabRoom : Room := ⟨"L1", "Lab 1", 50, "lab"⟩

def demoSlot : TimeSlot := ⟨"Monday", 1, "09:00", "10:00"⟩

def demoSlot2 : TimeSlot := ⟨"Monday", 2, "10:00", "11:00"⟩

/-- A configuration with a single slot. -/
def demoCfg : TimetableConfig := ⟨["Monday"], 1, [(1, "09:00", "10:00")]⟩

/-- A configuration with two slots on the same day. -/
def demoCfg2 : TimetableConfig :=
  ⟨["Monday"], 2, [(1, "09:00", "10:00"), (2, "10:00", "11:00")]⟩

def demoMapping : List ((String × String) × String) := [(("C1", "S1"), "T1")]

def demoReq : ScheduleRequest := ⟨demoCourse, demoSection, demoTeacher, 1⟩

def demoAssign : ClassAssignment :=
  ⟨demoCourse, demoSection, demoTeacher, demoRoom, demoSlot⟩

/-- An assignment violating the capacity constraint. -/
def demoSmallAssign : ClassAssignment :=
  ⟨demoCourse, demoSection, demoTeacher, demoSmallRoom, demoSlot⟩

/-- The candidate `_get_possible_assignments` produces for the theory
course `demoCourse` from the lab room `demoLabRoom`. -/
def demoLabAssign : ClassAssignment :=
  ⟨demoCourse, demoSection, demoTeacher, demoLabRoom, demoSlot⟩

/-- A successful demonstration run of `generate`. -/
def demoGen : Option (List ClassAssignment) × GenState Unit :=
  generate idShuffle demoCfg [demoCourse] [demoSection] [demoTeacher] [demoRoom]
    demoMapping ()

/-- A failing demonstration run of `generate` (the only room is too
small for the section). -/
def demoGenFail : Option (List ClassAssignment) × GenState Unit :=
  generate idShuffle demoCfg [demoCourse] [demoSection] [demoTeacher] [demoSmallRoom]
    demoMapping ()

theorem filterMap_const_if {α β : Type} (p : α → Bool) (v : β) (l : List α) :
    l.filterMap (fun e => if p e then some v else none) =
      List.replicate (l.filter p).length v := by
  induction l with
  | nil => rfl
  | cons x xs ih =>
    by_cases h : p x = true
    · simp [List.filterMap_cons, List.filter_cons, h, ih, List.replicate_succ]
    · simp only [Bool.not_eq_true] at h
      simp [List.filterMap_cons, List.filter_cons, h, ih]

theorem check_teacher_conflict_eq (a : ClassAssignment) (L : List ClassAssignment) :
    check_teacher_conflict a L =
      List.replicate (L.filter (teacherClash a)).length
        (Violation.teacherConflict a.teacher.name a.time_slot) := by
  unfold check_teacher_conflict teacherClash
  exact filterMap_const_if _ _ L

theorem check_room_conflict_eq (a : ClassAssignment) (L : List ClassAssignment) :
    check_room_conflict a L =
      List.replicate (L.filter (roomClash a)).length
        (Violation.roomConflict a.room.name a.time_slot) := by
  unfold check_room_conflict roomClash
  exact filterMap_const_if _ _ L

theorem check_section_conflict_eq (a : ClassAssignment) (L : List ClassAssignment) :
    check_section_conflict a L =
      List.replicate (L.filter (sectionClash a)).length
        (Violation.sectionConflict a.sec.name a.time_slot) := by
  unfold check_section_conflict sectionClash
  exact filterMap_const_if _ _ L

theorem check_teacher_conflict_nil (a : ClassAssignment) (L : List ClassAssignment) :
    check_teacher_conflict a L = [] ↔ ∀ e ∈ L, teacherClash a e = false := by
  rw [check_teacher_conflict_eq]
  simp [List.replicate_eq_nil_iff, List.length_eq_zero, List.filter_eq_nil_iff,
    Bool.not_eq_true]

theorem check_room_conflict_nil (a : ClassAssignment) (L : List ClassAssignment) :
    check_room_conflict a L = [] ↔ ∀ e ∈ L, roomClash a e = false := by
  rw [check_room_conflict_eq]
  simp [List.replicate_eq_nil_iff, List.length_eq_zero, List.filter_eq_nil_iff,
    Bool.not_eq_true]

theorem check_section_conflict_nil (a : ClassAssignment) (L : List ClassAssignment) :
    check_section_conflict a L = [] ↔ ∀ e ∈ L, sectionClash a e = false := by
  rw [check_section_conflict_eq]
  simp [List.replicate_eq_nil_iff, List.length_eq_zero, List.filter_eq_nil_iff,
    Bool.not_eq_true]

theorem check_room_capacity_nil (a : ClassAssignment) :
    check_room_capacity a = [] ↔ a.sec.student_count ≤ a.room.capacity := by
  unfold check_room_capacity
  split <;> rename_i h
  · simp only [List.cons_ne_nil, false_iff]
    omega
  · simp only [true_iff]
    omega

theorem check_teacher_availability_nil (a : ClassAssignment) :
    check_teacher_availability a = [] ↔ a.teacher.is_available a.time_slot = true := by
  unfold check_teacher_availability
  split <;> rename_i h
  · simp only [Bool.not_eq_true'] at h
    simp [h]
  · simp only [Bool.not_eq_true', Bool.not_eq_false] at h
    simp [h]

theorem check_room_type_compatibility_nil (a : ClassAssignment) :
    check_room_type_compatibility a = [] ↔
      (a.course.course_type = "lab" → a.room.room_type = "lab") := by
  unfold check_room_type_compatibility
  split <;> rename_i h
  · simp only [Bool.and_eq_true, beq_iff_eq, bne_iff_ne, ne_eq] at h
    simp only [List.cons_ne_nil, false_iff, not_forall]
    exact ⟨h.1, h.2⟩
  · simp only [Bool.and_eq_true, beq_iff_eq, bne_iff_ne, ne_eq, not_and,
      Classical.not_not] at h
    exact ⟨fun _ => h, fun _ => rfl⟩

/-- The validator accepts exactly when all six constraint conditions
hold against the committed list. -/
theorem validate_ok_iff (a : ClassAssignment) (L : List ClassAssignment) :
    (validate_assignment a L).1 = true ↔
      (∀ e ∈ L, teacherClash a e = false) ∧
      (∀ e ∈ L, roomClash a e = false) ∧
      (∀ e ∈ L, sectionClash a e = false) ∧
      a.sec.student_count ≤ a.room.capacity ∧
      a.teacher.is_available a.time_slot = true ∧
      (a.course.course_type = "lab" → a.room.room_type = "lab") := by
  simp only [validate_assignment, beq_iff_eq, List.length_eq_zero, List.append_eq_nil,
    check_teacher_conflict_nil, check_room_conflict_nil, check_section_conflict_nil,
    check_room_capacity_nil, check_teacher_availability_nil,
    check_room_type_compatibility_nil]
  tauto

/-- What the validator's conflict list contains: one kind of entry per
constraint, present exactly when the constraint is violated. -/
theorem mem_validate_conflicts (a : ClassAssignment) (L : List ClassAssignment)
    (v : Violation) :
    v ∈ (validate_assignment a L).2 ↔
      ((∃ e ∈ L, teacherClash a e = true) ∧
        v = .teacherConflict a.teacher.name a.time_slot) ∨
      ((∃ e ∈ L, roomClash a e = true) ∧
        v = .roomConflict a.room.name a.time_slot) ∨
      ((∃ e ∈ L, sectionClash a e = true) ∧
        v = .sectionConflict a.sec.name a.time_slot) ∨
      (a.room.capacity < a.sec.student_count ∧
        v = .capacityConflict a.room.name a.room.capacity a.sec.name a.sec.student_count) ∨
      (a.teacher.is_available a.time_slot = false ∧
        v = .availabilityConflict a.teacher.name a.time_slot) ∨
      ((a.course.course_type = "lab" ∧ a.room.room_type ≠ "lab") ∧
        v = .roomTypeConflict a.course.name a.room.name a.room.room_type) := by
  by_cases hcap : a.room.capacity < a.sec.student_count <;>
    by_cases hav : a.teacher.is_available a.time_slot = true <;>
      by_cases hlab : a.course.course_type = "lab" ∧ a.room.room_type ≠ "lab" <;>
        simp [validate_assignment, List.mem_append, check_teacher_conflict_eq,
          check_room_conflict_eq, check_section_conflict_eq, check_room_capacity,
          check_teacher_availability, check_room_type_compatibility,
          List.mem_replicate, ne_eq, List.length_eq_zero, List.filter_eq_nil_iff,
          not_forall, beq_iff_eq, bne_iff_ne, hcap, hav, hlab]

/-- C3: `validate_assignment` evaluates all six checks without
short-circuiting: the returned flag is true exactly when the returned
violation list is empty, and the list contains an entry of each
category exactly when the corresponding constraint is violated — in
particular a candidate violating both the capacity constraint and the
teacher-double-booking constraint gets a violation entry of each of
the two kinds. -/
theorem validate_assignment_reports_all_violations
    (a : ClassAssignment) (L : List ClassAssignment) :
    ((validate_assignment a L).1 = true ↔ (validate_assignment a L).2 = []) ∧
    ((∃ v ∈ (validate_assignment a L).2, isTeacherViolation v = true) ↔
      ∃ e ∈ L, teacherClash a e = true) ∧
    ((∃ v ∈ (validate_assignment a L).2, isRoomViolation v = true) ↔
      ∃ e ∈ L, roomClash a e = true) ∧
    ((∃ v ∈ (validate_assignment a L).2, isSectionViolation v = true) ↔
      ∃ e ∈ L, sectionClash a e = true) ∧
    ((∃ v ∈ (validate_assignment a L).2, isCapacityViolation v = true) ↔
      a.room.capacity < a.sec.student_count) ∧
    ((∃ v ∈ (validate_assignment a L).2, isAvailabilityViolation v = true) ↔
      a.teacher.is_available a.time_slot = false) ∧
    ((∃ v ∈ (validate_assignment a L).2, isRoomTypeViolation v = true) ↔
      (a.course.course_type = "lab" ∧ a.room.room_type ≠ "lab")) := by
  refine ⟨?_, ?_, ?_, ?_, ?_, ?_, ?_⟩
  · show ((validate_assignment a L).2.length == 0) = true ↔ _
    simp [List.length_eq_zero]
  all_goals
    simp only [mem_validate_conflicts]
    constructor
    · rintro ⟨v, hv | hv | hv | hv | hv | hv, hkind⟩ <;>
        first
          | exact hv.1
          | (rw [hv.2] at hkind; simp [isTeacherViolation, isRoomViolation,
              isSectionViolation, isCapacityViolation, isAvailabilityViolation,
              isRoomTypeViolation] at hkind)
    · intro hcond
      first
        | exact ⟨_, Or.inl ⟨hcond, rfl⟩, rfl⟩
        | exact ⟨_, Or.inr (Or.inl ⟨hcond, rfl⟩), rfl⟩
        | exact ⟨_, Or.inr (Or.inr (Or.inl ⟨hcond, rfl⟩)), rfl⟩
        | exact ⟨_, Or.inr (Or.inr (Or.inr (Or.inl ⟨hcond, rfl⟩))), rfl⟩
        | exact ⟨_, Or.inr (Or.inr (Or.inr (Or.inr (Or.inl ⟨hcond, rfl⟩)))), rfl⟩
        | exact ⟨_, Or.inr (Or.inr (Or.inr (Or.inr (Or.inr ⟨hcond, rfl⟩)))), rfl⟩

/-! ## Search-engine lemmas -/

theorem Good_nil : Good [] := ⟨List.Pairwise.nil, by simp⟩

/-- A validator-accepted candidate extends a good list to a good list. -/
theorem Good_snoc {L : List ClassAssignment} {a : ClassAssignment}
    (hg : Good L) (hv : (validate_assignment a L).1 = true) : Good (L ++ [a]) := by
  rcases (validate_ok_iff a L).1 hv with ⟨ht, hr, hs, hcap, hav, hty⟩
  constructor
  · rw [List.pairwise_append]
    refine ⟨hg.1, by simp, ?_⟩
    intro x hx y hy
    simp only [List.mem_singleton] at hy
    subst hy
    have h1 := ht x hx
    have h2 := hr x hx
    have h3 := hs x hx
    simp only [teacherClash] at h1
    simp only [roomClash] at h2
    simp only [sectionClash] at h3
    simp [noPairConflict, h1, h2, h3]
  · intro b hb
    rcases List.mem_append.1 hb with h | h
    · exact hg.2 b h
    · simp only [List.mem_singleton] at h
      subst h
      by_cases hl : b.course.course_type = "lab" <;>
        simp [assignmentOk, hcap, hav, hl, hty]

/-- If the recursion restores the committed list on failure, so does
the candidate loop: every commitment it makes is undone. -/
theorem try_candidates_fail_assignments {σ : Type}
    (recurse : GenState σ → Bool × GenState σ)
    (hrec : ∀ s, (recurse s).1 = false → (recurse s).2.assignments = s.assignments) :
    ∀ (cands : List ClassAssignment) (st : GenState σ),
      (try_candidates recurse cands st).1 = false →
      (try_candidates recurse cands st).2.assignments = st.assignments := by
  intro cands
  induction cands with
  | nil => intro st _; rfl
  | cons a rest ih =>
    intro st hfail
    simp only [try_candidates] at hfail ⊢
    by_cases hv : (validate_assignment a st.assignments).1 = true
    · simp only [hv, if_true] at hfail ⊢
      by_cases hr : (recurse { st with assignments := st.assignments ++ [a] }).1 = true
      · rw [if_pos hr] at hfail
        exact absurd hfail (by simp [hr])
      · simp only [Bool.not_eq_true] at hr
        simp only [hr, Bool.false_eq_true, if_false] at hfail ⊢
        rw [ih _ hfail]
        simp only [hrec _ hr]
        exact List.dropLast_concat
    · simp only [Bool.not_eq_true] at hv
      simp only [hv, Bool.false_eq_true, if_false] at hfail ⊢
      exact ih _ hfail

/-- A failing search call leaves the committed list exactly as it
found it. -/
theorem backtrack_fail_assignments {σ : Type}
    (shuffle : σ → List ClassAssignment → List ClassAssignment × σ)
    (rooms : List Room) (all_slots : List TimeSlot) (max_attempts : Nat) :
    ∀ (pending : List ScheduleRequest) (st : GenState σ),
      (backtrack_schedule shuffle rooms all_slots max_attempts pending st).1 = false →
      (backtrack_schedule shuffle rooms all_slots max_attempts pending st).2.assignments
        = st.assignments := by
  intro pending
  induction pending with
  | nil => intro st h; simp [backtrack_schedule] at h
  | cons req tail ih =>
    intro st hfail
    simp only [backtrack_schedule] at hfail ⊢
    by_cases hb : max_attempts ≤ st.attempts
    · simp [hb]
    · simp only [if_neg hb] at hfail ⊢
      exact try_candidates_fail_assignments _ ih _ _ hfail

/-- The candidate loop only moves the attempt counter through the
recursion, and never below its entry value. -/
theorem try_candidates_attempts_le {σ : Type}
    (recurse : GenState σ → Bool × GenState σ)
    (hrec : ∀ s, s.attempts ≤ (recurse s).2.attempts) :
    ∀ (cands : List ClassAssignment) (st : GenState σ),
      st.attempts ≤ (try_candidates recurse cands st).2.attempts := by
  intro cands
  induction cands with
  | nil => intro st; exact Nat.le_refl _
  | cons a rest ih =>
    intro st
    simp only [try_candidates]
    by_cases hv : (validate_assignment a st.assignments).1 = true
    · simp only [hv, if_true]
      by_cases hr : (recurse { st with assignments := st.assignments ++ [a] }).1 = true
      · simpa [hr] using hrec { st with assignments := st.assignments ++ [a] }
      · simp only [Bool.not_eq_true] at hr
        simp only [hr, Bool.false_eq_true, if_false]
        refine Nat.le_trans ?_
          (ih { (recurse { st with assignments := st.assignments ++ [a] }).2 with
            assignments :=
              (recurse { st with assignments := st.assignments ++ [a] }).2.assignments.dropLast,
            backtracks :=
              (recurse { st with assignments := st.assignments ++ [a] }).2.backtracks + 1 })
        exact hrec { st with assignments := st.assignments ++ [a] }
    · simp only [Bool.not_eq_true] at hv
      simp only [hv, Bool.false_eq_true, if_false]
      exact ih _

/-- The attempt counter never decreases across a search call. -/
theorem backtrack_attempts_le {σ : Type}
    (shuffle : σ → List ClassAssignment → List ClassAssignment × σ)
    (rooms : List Room) (all_slots : List TimeSlot) (max_attempts : Nat) :
    ∀ (pending : List ScheduleRequest) (st : GenState σ),
      st.attempts ≤
        (backtrack_schedule shuffle rooms all_slots max_attempts pending st).2.attempts := by
  intro pending
  induction pending with
  | nil => intro st; exact Nat.le_refl _
  | cons req tail ih =>
    intro st
    simp only [backtrack_schedule]
    by_cases hb : max_attempts ≤ st.attempts
    · simp [hb]
    · simp only [if_neg hb]
      refine Nat.le_trans (Nat.le_succ st.attempts) ?_
      exact try_candidates_attempts_le _ ih
        (get_possible_assignments shuffle req rooms all_slots st.rng).1
        { st with
          attempts := st.attempts + 1
          rng := (get_possible_assignments shuffle req rooms all_slots st.rng).2 }

/-- The candidate loop keeps the attempt counter within the budget if
the recursion does. -/
theorem try_candidates_attempts_bound {σ : Type} (max_attempts : Nat)
    (recurse : GenState σ → Bool × GenState σ)
    (hrec : ∀ s, s.attempts ≤ max_attempts → (recurse s).2.attempts ≤ max_attempts) :
    ∀ (cands : List ClassAssignment) (st : GenState σ),
      st.attempts ≤ max_attempts →
      (try_candidates recurse cands st).2.attempts ≤ max_attempts := by
  intro cands
  induction cands with
  | nil => intro st h; exact h
  | cons a rest ih =>
    intro st hst
    simp only [try_candidates]
    by_cases hv : (validate_assignment a st.assignments).1 = true
    · simp only [hv, if_true]
      by_cases hr : (recurse { st with assignments := st.assignments ++ [a] }).1 = true
      · simpa [hr] using hrec { st with assignments := st.assignments ++ [a] } hst
      · simp only [Bool.not_eq_true] at hr
        simp only [hr, Bool.false_eq_true, if_false]
        exact ih _ (hrec _ hst)
    · simp only [Bool.not_eq_true] at hv
      simp only [hv, Bool.false_eq_true, if_false]
      exact ih _ hst

/-- A search that starts within the budget ends within the budget. -/
theorem backtrack_attempts_bound {σ : Type}
    (shuffle : σ → List ClassAssignment → List ClassAssignment × σ)
    (rooms : List Room) (all_slots : List TimeSlot) (max_attempts : Nat) :
    ∀ (pending : List ScheduleRequest) (st : GenState σ),
      st.attempts ≤ max_attempts →
      (backtrack_schedule shuffle rooms all_slots max_attempts pending st).2.attempts
        ≤ max_attempts := by
  intro pending
  induction pending with
  | nil => intro st h; exact h
  | cons req tail ih =>
    intro st hst
    simp only [backtrack_schedule]
    by_cases hb : max_attempts ≤ st.attempts
    · simp [hb, hst]
    · simp only [if_neg hb]
      exact try_candidates_attempts_bound _ _ ih _ _
        (show st.attempts + 1 ≤ max_attempts by omega)

/-- If the recursion turns good states into good states (and restores
on failure), a successful candidate loop yields a good committed
list. -/
theorem try_candidates_good {σ : Type} (recurse : GenState σ → Bool × GenState σ)
    (hrestore : ∀ s, (recurse s).1 = false → (recurse s).2.assignments = s.assignments)
    (hgood : ∀ s, Good s.assignments → (recurse s).1 = true →
      Good (recurse s).2.assignments) :
    ∀ (cands : List ClassAssignment) (st : GenState σ), Good st.assignments →
      (try_candidates recurse cands st).1 = true →
      Good (try_candidates recurse cands st).2.assignments := by
  intro cands
  induction cands with
  | nil =>
    intro st _ hok
    exact absurd hok (by simp [try_candidates])
  | cons a rest ih =>
    intro st hg hok
    simp only [try_candidates] at hok ⊢
    by_cases hv : (validate_assignment a st.assignments).1 = true
    · simp only [hv, if_true] at hok ⊢
      by_cases hr : (recurse { st with assignments := st.assignments ++ [a] }).1 = true
      · simp only [hr, if_true] at hok ⊢
        exact hgood { st with assignments := st.assignments ++ [a] }
          (Good_snoc hg hv) hr
      · simp only [Bool.not_eq_true] at hr
        simp only [hr, Bool.false_eq_true, if_false] at hok ⊢
        have e : (recurse { st with assignments := st.assignments ++ [a] }).2.assignments.dropLast
            = st.assignments := by
          rw [hrestore _ hr]
          exact List.dropLast_concat
        exact ih { (recurse { st with assignments := st.assignments ++ [a] }).2 with
            assignments :=
              (recurse { st with assignments := st.assignments ++ [a] }).2.assignments.dropLast
            backtracks :=
              (recurse { st with assignments := st.assignments ++ [a] }).2.backtracks + 1 }
          (by simpa [e] using hg) hok
    · simp only [Bool.not_eq_true] at hv
      simp only [hv, Bool.false_eq_true, if_false] at hok ⊢
      exact ih _ hg hok

/-- A successful search call starting from a good committed list ends
with a good committed list: every element it added passed the
validator against everything before it. -/
theorem backtrack_good {σ : Type}
    (shuffle : σ → List ClassAssignment → List ClassAssignment × σ)
    (rooms : List Room) (all_slots : List TimeSlot) (max_attempts : Nat) :
    ∀ (pending : List ScheduleRequest) (st : GenState σ), Good st.assignments →
      (backtrack_schedule shuffle rooms all_slots max_attempts pending st).1 = true →
      Good (backtrack_schedule shuffle rooms all_slots max_attempts pending st).2.assignments := by
  intro pending
  induction pending with
  | nil => intro st hg _; exact hg
  | cons req tail ih =>
    intro st hg hok
    simp only [backtrack_schedule] at hok ⊢
    by_cases hb : max_attempts ≤ st.attempts
    · rw [if_pos hb] at hok
      exact absurd hok (by simp)
    · simp only [if_neg hb] at hok ⊢
      exact try_candidates_good _
        (backtrack_fail_assignments shuffle rooms all_slots max_attempts tail)
        ih _ _ hg hok

/-- Unpacking `Good` into the six invariants of §3 of the spec. -/
theorem Good_explicit {L : List ClassAssignment} (h : Good L) :
    L.Pairwise (fun x y =>
      ¬(Teacher.eqk x.teacher y.teacher = true ∧
        TimeSlot.eqk x.time_slot y.time_slot = true)) ∧
    L.Pairwise (fun x y =>
      ¬(Room.eqk x.room y.room = true ∧
        TimeSlot.eqk x.time_slot y.time_slot = true)) ∧
    L.Pairwise (fun x y =>
      ¬(Section.eqk x.sec y.sec = true ∧
        TimeSlot.eqk x.time_slot y.time_slot = true)) ∧
    (∀ a ∈ L, a.sec.student_count ≤ a.room.capacity) ∧
    (∀ a ∈ L, a.teacher.is_available a.time_slot = true) ∧
    (∀ a ∈ L, a.course.course_type = "lab" → a.room.room_type = "lab") := by
  obtain ⟨hp, hall⟩ := h
  have hok : ∀ a ∈ L, a.sec.student_count ≤ a.room.capacity ∧
      a.teacher.is_available a.time_slot = true ∧
      (a.course.course_type = "lab" → a.room.room_type = "lab") := by
    intro a ha
    have := hall a ha
    simp only [assignmentOk, Bool.and_eq_true, decide_eq_true_eq, Bool.or_eq_true,
      bne_iff_ne, ne_eq, beq_iff_eq] at this
    obtain ⟨⟨h1, h2⟩, h3⟩ := this
    refine ⟨h1, h2, fun hlab => ?_⟩
    rcases h3 with h | h
    · exact absurd hlab h
    · exact h
  refine ⟨hp.imp ?_, hp.imp ?_, hp.imp ?_,
    fun a ha => (hok a ha).1, fun a ha => (hok a ha).2.1, fun a ha => (hok a ha).2.2⟩ <;>
    · intro x y hxy
      simp only [noPairConflict, Bool.and_eq_true, Bool.not_eq_true',
        Bool.and_eq_false_iff] at hxy
      rintro ⟨h1, h2⟩
      rcases hxy with ⟨⟨ht, hr⟩, hs⟩
      simp_all

/-- C1: whenever `generate` returns an assignment list, that list
satisfies all six hard invariants: no two assignments share
(teacher, slot), (room, slot) or (section, slot), every room fits its
section, every teacher is available at their slot, and lab courses sit
in lab rooms. -/
theorem generate_satisfies_invariants {σ : Type}
    (shuffle : σ → List ClassAssignment → List ClassAssignment × σ)
    (config : TimetableConfig) (courses : List Course) (sections : List Section)
    (teachers : List Teacher) (rooms : List Room)
    (course_assignments : List ((String × String) × String)) (rng : σ)
    (L : List ClassAssignment) (st : GenState σ)
    (h : generate shuffle config courses sections teachers rooms course_assignments rng
      = (some L, st)) :
    L.Pairwise (fun x y =>
      ¬(Teacher.eqk x.teacher y.teacher = true ∧
        TimeSlot.eqk x.time_slot y.time_slot = true)) ∧
    L.Pairwise (fun x y =>
      ¬(Room.eqk x.room y.room = true ∧
        TimeSlot.eqk x.time_slot y.time_slot = true)) ∧
    L.Pairwise (fun x y =>
      ¬(Section.eqk x.sec y.sec = true ∧
        TimeSlot.eqk x.time_slot y.time_slot = true)) ∧
    (∀ a ∈ L, a.sec.student_count ≤ a.room.capacity) ∧
    (∀ a ∈ L, a.teacher.is_available a.time_slot = true) ∧
    (∀ a ∈ L, a.course.course_type = "lab" → a.room.room_type = "lab") := by
  refine Good_explicit ?_
  simp only [generate] at h
  split at h <;> rename_i hc
  · have hL : L = (schedule_requests shuffle
        (prioritize_requests
          (build_scheduling_requests courses sections teachers course_assignments).1)
        rooms (get_all_time_slots config) 10000
        { assignments := [], attempts := 0, backtracks := 0,
          conflicts_resolved := 0, rng := rng }).2.assignments := by
      have := congrArg Prod.fst h
      simpa using this.symm
    rw [hL]
    exact backtrack_good shuffle rooms (get_all_time_slots config) 10000 _ _
      ⟨List.Pairwise.nil, by simp⟩ hc
  · exact absurd (congrArg Prod.fst h) (by simp)

/-- C1 witness: a concrete successful run whose output satisfies the
six invariants. -/
theorem generate_satisfies_invariants_witness :
    generate idShuffle demoCfg [demoCourse] [demoSection] [demoTeacher] [demoRoom]
        demoMapping () = (some demoGen.2.assignments, demoGen.2) ∧
    (∀ a ∈ demoGen.2.assignments, a.sec.student_count ≤ a.room.capacity) ∧
    (∀ a ∈ demoGen.2.assignments, a.teacher.is_available a.time_slot = true) :=
  ⟨by decide,
   (generate_satisfies_invariants idShuffle demoCfg [demoCourse] [demoSection]
      [demoTeacher] [demoRoom] demoMapping () demoGen.2.assignments demoGen.2
      (by decide)).2.2.2.1,
   (generate_satisfies_invariants idShuffle demoCfg [demoCourse] [demoSection]
      [demoTeacher] [demoRoom] demoMapping () demoGen.2.assignments demoGen.2
      (by decide)).2.2.2.2.1⟩

/-- A visit to an unscheduled request under the budget consumes at
least its own attempt unit. -/
theorem backtrack_consumes {σ : Type}
    (shuffle : σ → List ClassAssignment → List ClassAssignment × σ)
    (rooms : List Room) (all_slots : List TimeSlot) (max_attempts : Nat)
    (req : ScheduleRequest) (tail : List ScheduleRequest) (st : GenState σ)
    (h : st.attempts < max_attempts) :
    st.attempts + 1 ≤
      (backtrack_schedule shuffle rooms all_slots max_attempts (req :: tail) st).2.attempts := by
  simp only [backtrack_schedule, if_neg (Nat.not_le.mpr h)]
  exact try_candidates_attempts_le _
    (backtrack_attempts_le shuffle rooms all_slots max_attempts tail)
    (get_possible_assignments shuffle req rooms all_slots st.rng).1
    { st with
      attempts := st.attempts + 1
      rng := (get_possible_assignments shuffle req rooms all_slots st.rng).2 }

/-- C6 counterexample: the claim says that once the attempt counter
has reached `max_attempts` every (sub)search call returns failure and
the entire search ends in failure.  But the success base case
(`index >= len(requests)`) is checked *before* the budget, so with
`max_attempts = 1` and a single satisfiable request the search visits
the request (counter reaches the budget) and still returns success. -/
theorem search_succeeds_at_attempt_budget :
    (backtrack_schedule idShuffle [demoRoom] (get_all_time_slots demoCfg) 1 [demoReq]
        ⟨[], 0, 0, 0, ()⟩).1 = true ∧
    (backtrack_schedule idShuffle [demoRoom] (get_all_time_slots demoCfg) 1 [demoReq]
        ⟨[], 0, 0, 0, ()⟩).2.attempts = 1 := by
  constructor
  · decide
  · decide

/-- C6 (amended): the attempt budget is one counter global to the
whole recursive search: a call at an *unscheduled* request index with
the counter at or past `max_attempts` fails immediately without
consuming units or touching the state; a call under the budget
consumes at least one unit; the counter never decreases and never
exceeds `max_attempts` when it started within it.  (A call whose
requests are all scheduled still succeeds regardless of the counter —
the search as a whole can therefore succeed with the counter exactly
at `max_attempts`, which is the corrected part of the claim.) -/
theorem attempt_budget_global {σ : Type}
    (shuffle : σ → List ClassAssignment → List ClassAssignment × σ)
    (rooms : List Room) (all_slots : List TimeSlot) (max_attempts : Nat)
    (pending : List ScheduleRequest) (st : GenState σ) :
    (∀ req tail, pending = req :: tail → max_attempts ≤ st.attempts →
      backtrack_schedule shuffle rooms all_slots max_attempts pending st = (false, st)) ∧
    (st.attempts ≤ max_attempts →
      (backtrack_schedule shuffle rooms all_slots max_attempts pending st).2.attempts
        ≤ max_attempts) ∧
    (∀ req tail, pending = req :: tail → st.attempts < max_attempts →
      st.attempts + 1 ≤
        (backtrack_schedule shuffle rooms all_slots max_attempts pending st).2.attempts) ∧
    st.attempts ≤
      (backtrack_schedule shuffle rooms all_slots max_attempts pending st).2.attempts := by
  refine ⟨?_, backtrack_attempts_bound shuffle rooms all_slots max_attempts pending st,
    ?_, backtrack_attempts_le shuffle rooms all_slots max_attempts pending st⟩
  · rintro req tail rfl hb
    simp [backtrack_schedule, hb]
  · rintro req tail rfl hlt
    exact backtrack_consumes shuffle rooms all_slots max_attempts req tail st hlt

/-- C6 witness: the amended budget facts at concrete inputs — a call
already past the budget fails leaving the state untouched, and a
fresh search stays within the budget. -/
theorem attempt_budget_global_witness :
    backtrack_schedule idShuffle [demoRoom] (get_all_time_slots demoCfg) 1 [demoReq]
        ⟨[], 5, 0, 0, ()⟩ = (false, ⟨[], 5, 0, 0, ()⟩) ∧
    (backtrack_schedule idShuffle [demoRoom] (get_all_time_slots demoCfg) 1 [demoReq]
        ⟨[], 0, 0, 0, ()⟩).2.attempts ≤ 1 :=
  ⟨(attempt_budget_global idShuffle [demoRoom] (get_all_time_slots demoCfg) 1 [demoReq]
      ⟨[], 5, 0, 0, ()⟩).1 demoReq [] rfl (by decide),
   (attempt_budget_global idShuffle [demoRoom] (get_all_time_slots demoCfg) 1 [demoReq]
      ⟨[], 0, 0, 0, ()⟩).2.1 (by decide)⟩

/-- C8: failure is atomic.  A failing search call restores the
committed list to exactly its entry state, and a failing `generate`
returns the no-solution result with an empty committed list — never a
partial timetable. -/
theorem failure_is_atomic :
    (∀ (σ : Type) (shuffle : σ → List ClassAssignment → List ClassAssignment × σ)
      (rooms : List Room) (all_slots : List TimeSlot) (max_attempts : Nat)
      (pending : List ScheduleRequest) (st : GenState σ),
      (backtrack_schedule shuffle rooms all_slots max_attempts pending st).1 = false →
      (backtrack_schedule shuffle rooms all_slots max_attempts pending st).2.assignments
        = st.assignments) ∧
    (∀ (σ : Type) (shuffle : σ → List ClassAssignment → List ClassAssignment × σ)
      (config : TimetableConfig) (courses : List Course) (sections : List Section)
      (teachers : List Teacher) (rooms : List Room)
      (course_assignments : List ((String × String) × String)) (rng : σ),
      (generate shuffle config courses sections teachers rooms course_assignments rng).1
        = none →
      generate shuffle config courses sections teachers rooms course_assignments rng
        = (none,
          (generate shuffle config courses sections teachers rooms course_assignments rng).2) ∧
      (generate shuffle config courses sections teachers rooms course_assignments rng).2.assignments
        = []) := by
  constructor
  · intro σ shuffle rooms all_slots max_attempts pending st h
    exact backtrack_fail_assignments shuffle rooms all_slots max_attempts pending st h
  · intro σ shuffle config courses sections teachers rooms course_assignments rng h
    refine ⟨Prod.ext h rfl, ?_⟩
    simp only [generate] at h ⊢
    split at h <;> rename_i hc
    · exact absurd h (by simp)
    · simp only [Bool.not_eq_true] at hc
      simp only [hc, Bool.false_eq_true, if_false]
      exact backtrack_fail_assignments shuffle rooms (get_all_time_slots config) 10000 _ _ hc

/-- C8 witness: a concrete failing run (the only room is smaller than
the section) yields `None` and an empty committed list, and the
failing search call left the state untouched. -/
theorem failure_is_atomic_witness :
    (backtrack_schedule idShuffle [demoSmallRoom] (get_all_time_slots demoCfg) 10000
        [demoReq] ⟨[], 0, 0, 0, ()⟩).2.assignments = [] ∧
    generate idShuffle demoCfg [demoCourse] [demoSection] [demoTeacher] [demoSmallRoom]
        demoMapping ()
      = (none, demoGenFail.2) ∧
    demoGenFail.2.assignments = [] :=
  ⟨failure_is_atomic.1 Unit idShuffle [demoSmallRoom] (get_all_time_slots demoCfg) 10000
      [demoReq] ⟨[], 0, 0, 0, ()⟩ (by decide),
   (failure_is_atomic.2 Unit idShuffle demoCfg [demoCourse] [demoSection] [demoTeacher]
      [demoSmallRoom] demoMapping () (by decide)).1,
   (failure_is_atomic.2 Unit idShuffle demoCfg [demoCourse] [demoSection] [demoTeacher]
      [demoSmallRoom] demoMapping () (by decide)).2⟩

/-! ## Conflict-detector lemmas -/

theorem trackStep_fst {E : Type} (mk : ClassAssignment → ClassAssignment → E)
    (k : String × String × Nat) (a : ClassAssignment) (sched : Sched)
    (out : List E) : (trackStep mk k a sched out).1 = (k, a) :: sched := by
  unfold trackStep
  cases h : schedLookup sched k <;> simp

theorem schedLookup_cons (k' : String × String × Nat) (v : ClassAssignment)
    (sched : Sched) (k : String × String × Nat) :
    schedLookup ((k', v) :: sched) k =
      if (k' == k) = true then some v else schedLookup sched k := by
  by_cases h : (k' == k) = true <;> simp [schedLookup, List.find?, h]

theorem schedLookup_none_iff (sched : Sched) (k : String × String × Nat) :
    schedLookup sched k = none ↔ ∀ e ∈ sched, e.1 ≠ k := by
  induction sched with
  | nil => simp [schedLookup]
  | cons e rest ih =>
    rw [show e = (e.1, e.2) from rfl, schedLookup_cons]
    by_cases h : (e.1 == k) = true
    · simp only [h, if_true]
      simp only [beq_iff_eq] at h
      simp [h]
    · simp only [h, if_false]
      simp only [beq_iff_eq] at h
      simp [ih, h]

/-- The teacher components of the detector's scan are the generic
tracker run with the teacher key. -/
theorem detect_teacher_track (L : List ClassAssignment) (st : DetectState) :
    ((L.foldl detect_step st).teacher_schedule,
      (L.foldl detect_step st).report.teacher_conflicts) =
      trackList teacherKey mkTeacherEntry L st.teacher_schedule
        st.report.teacher_conflicts := by
  induction L generalizing st with
  | nil => rfl
  | cons a L ih =>
    rw [List.foldl_cons, ih]
    rfl

/-- The room components of the detector's scan. -/
theorem detect_room_track (L : List ClassAssignment) (st : DetectState) :
    ((L.foldl detect_step st).room_schedule,
      (L.foldl detect_step st).report.room_conflicts) =
      trackList roomKey mkRoomEntry L st.room_schedule st.report.room_conflicts := by
  induction L generalizing st with
  | nil => rfl
  | cons a L ih =>
    rw [List.foldl_cons, ih]
    rfl

/-- The section components of the detector's scan. -/
theorem detect_section_track (L : List ClassAssignment) (st : DetectState) :
    ((L.foldl detect_step st).section_schedule,
      (L.foldl detect_step st).report.section_conflicts) =
      trackList sectionKey mkSectionEntry L st.section_schedule
        st.report.section_conflicts := by
  induction L generalizing st with
  | nil => rfl
  | cons a L ih =>
    rw [List.foldl_cons, ih]
    rfl

/-- The capacity issues of the scan, one per violating assignment. -/
theorem detect_capacity (L : List ClassAssignment) (st : DetectState) :
    (L.foldl detect_step st).report.capacity_issues =
      st.report.capacity_issues ++ L.filterMap (fun a =>
        if a.room.capacity < a.sec.student_count then
          some { room := a.room.name, capacity := a.room.capacity, sec := a.sec.name,
                 student_count := a.sec.student_count, time_slot := a.time_slot.toStr }
        else none) := by
  induction L generalizing st with
  | nil => simp
  | cons a L ih =>
    rw [List.foldl_cons, ih, List.filterMap_cons]
    by_cases h : a.room.capacity < a.sec.student_count
    · simp [detect_step, h]
    · simp [detect_step, h]

/-- The availability issues of the scan. -/
theorem detect_availability (L : List ClassAssignment) (st : DetectState) :
    (L.foldl detect_step st).report.availability_issues =
      st.report.availability_issues ++ L.filterMap (fun a =>
        if a.teacher.is_available a.time_slot = false then
          some { teacher := a.teacher.name, time_slot := a.time_slot.toStr }
        else none) := by
  induction L generalizing st with
  | nil => simp
  | cons a L ih =>
    rw [List.foldl_cons, ih, List.filterMap_cons]
    by_cases h : a.teacher.is_available a.time_slot = false
    · simp [detect_step, h]
    · simp only [Bool.not_eq_false] at h
      simp [detect_step, h]

/-- The room-type issues of the scan. -/
theorem detect_room_type (L : List ClassAssignment) (st : DetectState) :
    (L.foldl detect_step st).report.room_type_issues =
      st.report.room_type_issues ++ L.filterMap (fun a =>
        if a.course.course_type == "lab" && a.room.room_type != "lab" then
          some { course := a.course.name, room := a.room.name,
                 room_type := a.room.room_type, required_type := "lab" }
        else none) := by
  induction L generalizing st with
  | nil => simp
  | cons a L ih =>
    rw [List.foldl_cons, ih, List.filterMap_cons]
    by_cases h : (a.course.course_type == "lab" && a.room.room_type != "lab") = true
    · simp [detect_step, h]
    · simp only [Bool.not_eq_true] at h
      simp [detect_step, h]

theorem trackList_append {E : Type} (key : ClassAssignment → String × String × Nat)
    (mk : ClassAssignment → ClassAssignment → E) (M N : List ClassAssignment) :
    ∀ (sched : Sched) (out : List E),
      trackList key mk (M ++ N) sched out =
        trackList key mk N (trackList key mk M sched out).1
          (trackList key mk M sched out).2 := by
  induction M with
  | nil => intro sched out; rfl
  | cons a M ih =>
    intro sched out
    simp only [List.cons_append, trackList]
    exact ih _ _

theorem trackList_sched {E : Type} (key : ClassAssignment → String × String × Nat)
    (mk : ClassAssignment → ClassAssignment → E) :
    ∀ (L : List ClassAssignment) (sched : Sched) (out : List E),
      (trackList key mk L sched out).1 =
        (L.map (fun a => (key a, a))).reverse ++ sched := by
  intro L
  induction L with
  | nil => intro sched out; simp [trackList]
  | cons a L ih =>
    intro sched out
    simp only [trackList, List.map_cons, List.reverse_cons, List.append_assoc,
      List.singleton_append]
    rw [ih]
    congr 1
    exact trackStep_fst mk (key a) a sched out

/-- The tracker's dictionary knows a key exactly when some processed
assignment (or the initial dictionary) carries it. -/
theorem trackList_lookup_none {E : Type} (key : ClassAssignment → String × String × Nat)
    (mk : ClassAssignment → ClassAssignment → E) (L : List ClassAssignment)
    (sched : Sched) (out : List E) (k : String × String × Nat) :
    schedLookup (trackList key mk L sched out).1 k = none ↔
      (∀ e ∈ L, key e ≠ k) ∧ schedLookup sched k = none := by
  rw [trackList_sched, schedLookup_none_iff, schedLookup_none_iff]
  constructor
  · intro h
    refine ⟨fun e he => ?_, fun e he => h e (List.mem_append_right _ he)⟩
    exact h (key e, e) (List.mem_append_left _ (by simpa using he))
  · rintro ⟨h1, h2⟩ e he
    rcases List.mem_append.1 he with h | h
    · simp only [List.mem_reverse, List.mem_map] at h
      obtain ⟨x, hx, rfl⟩ := h
      exact h1 x hx
    · exact h2 e h

/-- A duplicate-free run of the tracker records no conflicts. -/
theorem trackList_no_dup {E : Type} (key : ClassAssignment → String × String × Nat)
    (mk : ClassAssignment → ClassAssignment → E) :
    ∀ (L : List ClassAssignment) (sched : Sched) (out : List E),
      L.Pairwise (fun x y => key x ≠ key y) →
      (∀ a ∈ L, schedLookup sched (key a) = none) →
      (trackList key mk L sched out).2 = out := by
  intro L
  induction L with
  | nil => intro sched out _ _; rfl
  | cons a rest ih =>
    intro sched out hpw hlk
    simp only [trackList]
    have h0 : schedLookup sched (key a) = none := hlk a (by simp)
    have hstep : trackStep mk (key a) a sched out = ((key a, a) :: sched, out) := by
      unfold trackStep
      rw [h0]
    rw [hstep]
    refine ih _ _ (List.pairwise_cons.1 hpw).2 ?_
    intro b hb
    rw [schedLookup_cons]
    have hne : key a ≠ key b := (List.pairwise_cons.1 hpw).1 b hb
    rw [if_neg (by simpa using hne)]
    exact hlk b (by simp [hb])

theorem trackStep_snd_some {E : Type} (mk : ClassAssignment → ClassAssignment → E)
    (k : String × String × Nat) (a : ClassAssignment) (sched : Sched) (out : List E)
    (prev : ClassAssignment) (h : schedLookup sched k = some prev) :
    trackStep mk k a sched out = ((k, a) :: sched, out ++ [mk prev a]) := by
  unfold trackStep
  rw [h]

theorem trackStep_snd_none {E : Type} (mk : ClassAssignment → ClassAssignment → E)
    (k : String × String × Nat) (a : ClassAssignment) (sched : Sched) (out : List E)
    (h : schedLookup sched k = none) :
    trackStep mk k a sched out = ((k, a) :: sched, out) := by
  unfold trackStep
  rw [h]

/-- Conflict entries recorded by the tracker, counted: processing `L`
from dictionary `sched` records one entry per assignment whose key is
already occupied; in additive form, specialised to lists where every
key other than `K` occurs at most once. -/
theorem trackList_count {E : Type} (key : ClassAssignment → String × String × Nat)
    (mk : ClassAssignment → ClassAssignment → E) (K : String × String × Nat) :
    ∀ (L : List ClassAssignment) (sched : Sched) (out : List E),
      (∀ x ∈ L, key x ≠ K → schedLookup sched (key x) = none ∧
        (L.map key).count (key x) = 1) →
      (trackList key mk L sched out).2.length +
        (if (schedLookup sched K).isSome = true then 0
          else min 1 ((L.map key).count K))
        = out.length + (L.map key).count K := by
  intro L
  induction L with
  | nil => intro sched out _; simp [trackList]
  | cons a rest ih =>
    intro sched out hyp
    simp only [trackList, List.map_cons]
    by_cases hKa : key a = K
    · have hcnt : ((key a :: rest.map key).count K) = (rest.map key).count K + 1 := by
        simp [List.count_cons, hKa]
      have hrest : ∀ x ∈ rest, key x ≠ K →
          schedLookup ((key a, a) :: sched) (key x) = none ∧
            (rest.map key).count (key x) = 1 := by
        intro x hx hne
        have hx' := hyp x (by simp [hx]) hne
        have hnea : key a ≠ key x := by rw [hKa]; exact fun he => hne he.symm
        constructor
        · rw [schedLookup_cons, if_neg (by simpa using hnea)]
          exact hx'.1
        · have := hx'.2
          rw [List.map_cons, List.count_cons] at this
          simp only [beq_iff_eq] at this
          rw [if_neg hnea] at this
          simpa using this
      have hcons : schedLookup ((key a, a) :: sched) K = some a := by
        rw [schedLookup_cons, if_pos (by simp [hKa])]
      cases hlk : schedLookup sched (key a) with
      | some prev =>
        rw [trackStep_snd_some mk (key a) a sched out prev hlk]
        have hIH := ih ((key a, a) :: sched) (out ++ [mk prev a]) hrest
        rw [hcons] at hIH
        simp only [Option.isSome_some, if_pos] at hIH
        have hlkK : (schedLookup sched K).isSome = true := by
          rw [← hKa, hlk]
          rfl
        rw [hlkK]
        simp only [if_pos, List.length_append, List.length_singleton] at hIH ⊢
        omega
      | none =>
        rw [trackStep_snd_none mk (key a) a sched out hlk]
        have hIH := ih ((key a, a) :: sched) out hrest
        rw [hcons] at hIH
        simp only [Option.isSome_some, if_pos] at hIH
        have hlkK : (schedLookup sched K).isSome = false := by
          rw [← hKa, hlk]
          rfl
        rw [hlkK]
        simp only [Bool.false_eq_true, if_false, hcnt]
        have hmin : min 1 ((rest.map key).count K + 1) = 1 := by omega
        omega
    · have hx' := hyp a (by simp) hKa
      have hnotin : key a ∉ rest.map key := by
        have := hx'.2
        rw [List.map_cons, List.count_cons] at this
        simp only [beq_self_eq_true, if_pos] at this
        have : (rest.map key).count (key a) = 0 := by omega
        exact List.count_eq_zero.1 this
      rw [trackStep_snd_none mk (key a) a sched out hx'.1]
      have hrest : ∀ x ∈ rest, key x ≠ K →
          schedLookup ((key a, a) :: sched) (key x) = none ∧
            (rest.map key).count (key x) = 1 := by
        intro x hx hne
        have hmem : key x ∈ rest.map key := List.mem_map.2 ⟨x, hx, rfl⟩
        have hnea : key a ≠ key x := fun he => hnotin (he ▸ hmem)
        have hx2 := hyp x (by simp [hx]) hne
        constructor
        · rw [schedLookup_cons, if_neg (by simpa using hnea)]
          exact hx2.1
        · have := hx2.2
          rw [List.map_cons, List.count_cons] at this
          simp only [beq_iff_eq] at this
          rw [if_neg hnea] at this
          simpa using this
      have hIH := ih ((key a, a) :: sched) out hrest
      have hlkK : schedLookup ((key a, a) :: sched) K = schedLookup sched K := by
        rw [schedLookup_cons, if_neg (by simpa using hKa)]
      rw [hlkK] at hIH
      have hcnt : ((key a :: rest.map key).count K) = (rest.map key).count K := by
        rw [List.count_cons]
        simp [hKa]
      rw [hcnt]
      exact hIH

/-- Content of the tracker's conflict entries on a list whose keys all
coincide: one entry per adjacent pair, made from the previous
occupant (the one most recently stored under the key) and the current
assignment. -/
theorem trackList_same_key {E : Type} (key : ClassAssignment → String × String × Nat)
    (mk : ClassAssignment → ClassAssignment → E) (K : String × String × Nat) :
    ∀ (L : List ClassAssignment) (prev : ClassAssignment) (sched : Sched) (out : List E),
      (∀ a ∈ L, key a = K) → schedLookup sched K = some prev →
      (trackList key mk L sched out).2 =
        out ++ (List.zip (prev :: L) L).map (fun p => mk p.1 p.2) := by
  intro L
  induction L with
  | nil => intro prev sched out _ _; simp [trackList]
  | cons a rest ih =>
    intro prev sched out hall hprev
    have hKa : key a = K := hall a (by simp)
    simp only [trackList]
    rw [trackStep_snd_some mk (key a) a sched out prev (by rw [hKa]; exact hprev)]
    have hcons : schedLookup ((key a, a) :: sched) K = some a := by
      rw [schedLookup_cons, if_pos (by simp [hKa])]
    rw [ih a _ _ (fun b hb => hall b (by simp [hb])) hcons]
    simp [List.zip_cons_cons]

theorem trackList_same_key_closed {E : Type}
    (key : ClassAssignment → String × String × Nat)
    (mk : ClassAssignment → ClassAssignment → E) (K : String × String × Nat)
    (L : List ClassAssignment) (hall : ∀ a ∈ L, key a = K) :
    (trackList key mk L [] []).2 = (L.zip L.tail).map (fun p => mk p.1 p.2) := by
  cases L with
  | nil => rfl
  | cons a rest =>
    have hKa : key a = K := hall a (by simp)
    simp only [trackList]
    rw [trackStep_snd_none mk (key a) a [] [] rfl]
    have hcons : schedLookup [(key a, a)] K = some a := by
      rw [schedLookup_cons, if_pos (by simp [hKa])]
    rw [trackList_same_key key mk K rest a _ _ (fun b hb => hall b (by simp [hb])) hcons]
    simp [List.zip_cons_cons]

/-- A duplicate landing makes the tracker record at least one entry. -/
theorem trackList_flags_dup {E : Type} (key : ClassAssignment → String × String × Nat)
    (mk : ClassAssignment → ClassAssignment → E) (L : List ClassAssignment)
    (a : ClassAssignment) (h : ∃ e ∈ L, key e = key a) :
    1 ≤ (trackList key mk (L ++ [a]) [] []).2.length := by
  rw [trackList_append]
  simp only [trackList]
  cases hlk : schedLookup (trackList key mk L [] []).1 (key a) with
  | none =>
    rw [trackList_lookup_none] at hlk
    obtain ⟨e, he, hk⟩ := h
    exact absurd hk (hlk.1 e he)
  | some prev =>
    rw [trackStep_snd_some mk (key a) a _ _ prev hlk]
    simp [trackList]

/-! ### Component corollaries of `find_all_conflicts` -/

theorem find_all_conflicts_teacher (L : List ClassAssignment) :
    (find_all_conflicts L).teacher_conflicts =
      (trackList teacherKey mkTeacherEntry L [] []).2 :=
  congrArg Prod.snd (detect_teacher_track L
    { report := emptyReport, teacher_schedule := [], room_schedule := [],
      section_schedule := [] })

theorem find_all_conflicts_room (L : List ClassAssignment) :
    (find_all_conflicts L).room_conflicts =
      (trackList roomKey mkRoomEntry L [] []).2 :=
  congrArg Prod.snd (detect_room_track L
    { report := emptyReport, teacher_schedule := [], room_schedule := [],
      section_schedule := [] })

theorem find_all_conflicts_section (L : List ClassAssignment) :
    (find_all_conflicts L).section_conflicts =
      (trackList sectionKey mkSectionEntry L [] []).2 :=
  congrArg Prod.snd (detect_section_track L
    { report := emptyReport, teacher_schedule := [], room_schedule := [],
      section_schedule := [] })

theorem find_all_conflicts_capacity (L : List ClassAssignment) :
    (find_all_conflicts L).capacity_issues =
      L.filterMap (fun a =>
        if a.room.capacity < a.sec.student_count then
          some { room := a.room.name, capacity := a.room.capacity, sec := a.sec.name,
                 student_count := a.sec.student_count, time_slot := a.time_slot.toStr }
        else none) := by
  have := detect_capacity L
    { report := emptyReport, teacher_schedule := [], room_schedule := [],
      section_schedule := [] }
  simpa [emptyReport] using this

theorem find_all_conflicts_availability (L : List ClassAssignment) :
    (find_all_conflicts L).availability_issues =
      L.filterMap (fun a =>
        if a.teacher.is_available a.time_slot = false then
          some { teacher := a.teacher.name, time_slot := a.time_slot.toStr }
        else none) := by
  have := detect_availability L
    { report := emptyReport, teacher_schedule := [], room_schedule := [],
      section_schedule := [] }
  simpa [emptyReport] using this

theorem find_all_conflicts_room_type (L : List ClassAssignment) :
    (find_all_conflicts L).room_type_issues =
      L.filterMap (fun a =>
        if a.course.course_type == "lab" && a.room.room_type != "lab" then
          some { course := a.course.name, room := a.room.name,
                 room_type := a.room.room_type, required_type := "lab" }
        else none) := by
  have := detect_room_type L
    { report := emptyReport, teacher_schedule := [], room_schedule := [],
      section_schedule := [] }
  simpa [emptyReport] using this

/-! ### Clash tests versus dictionary keys -/

theorem teacherClash_iff (a e : ClassAssignment) :
    teacherClash a e = true ↔ teacherKey e = teacherKey a := by
  simp [teacherClash, Teacher.eqk, TimeSlot.eqk, teacherKey, slotKey,
    Bool.and_eq_true, beq_iff_eq, Prod.ext_iff]

theorem roomClash_iff (a e : ClassAssignment) :
    roomClash a e = true ↔ roomKey e = roomKey a := by
  simp [roomClash, Room.eqk, TimeSlot.eqk, roomKey, slotKey,
    Bool.and_eq_true, beq_iff_eq, Prod.ext_iff]

theorem sectionClash_iff (a e : ClassAssignment) :
    sectionClash a e = true ↔ sectionKey e = sectionKey a := by
  simp [sectionClash, Section.eqk, TimeSlot.eqk, sectionKey, slotKey,
    Bool.and_eq_true, beq_iff_eq, Prod.ext_iff]

theorem length_filterMap_append_singleton {α β : Type} (f : α → Option β)
    (L : List α) (a : α) (b : β) (h : f a = some b) :
    1 ≤ ((L ++ [a]).filterMap f).length := by
  rw [List.filterMap_append]
  simp [List.filterMap_cons, h]

theorem teacherKey_eq_iff (x y : ClassAssignment) :
    teacherKey x = teacherKey y ↔
      (Teacher.eqk x.teacher y.teacher = true ∧
        TimeSlot.eqk x.time_slot y.time_slot = true) := by
  simp [teacherKey, slotKey, Teacher.eqk, TimeSlot.eqk, Prod.ext_iff,
    Bool.and_eq_true, beq_iff_eq]

theorem roomKey_eq_iff (x y : ClassAssignment) :
    roomKey x = roomKey y ↔
      (Room.eqk x.room y.room = true ∧
        TimeSlot.eqk x.time_slot y.time_slot = true) := by
  simp [roomKey, slotKey, Room.eqk, TimeSlot.eqk, Prod.ext_iff,
    Bool.and_eq_true, beq_iff_eq]

theorem sectionKey_eq_iff (x y : ClassAssignment) :
    sectionKey x = sectionKey y ↔
      (Section.eqk x.sec y.sec = true ∧
        TimeSlot.eqk x.time_slot y.time_slot = true) := by
  simp [sectionKey, slotKey, Section.eqk, TimeSlot.eqk, Prod.ext_iff,
    Bool.and_eq_true, beq_iff_eq]

/-- Whatever the validator rejects, the independent detector flags on
the would-be extended list. -/
theorem validator_reject_detector_flags (a : ClassAssignment)
    (L : List ClassAssignment) (h : (validate_assignment a L).1 = false) :
    0 < count_conflicts (find_all_conflicts (L ++ [a])) := by
  by_cases h1 : ∀ e ∈ L, teacherClash a e = false
  · by_cases h2 : ∀ e ∈ L, roomClash a e = false
    · by_cases h3 : ∀ e ∈ L, sectionClash a e = false
      · by_cases h4 : a.sec.student_count ≤ a.room.capacity
        · by_cases h5 : a.teacher.is_available a.time_slot = true
          · by_cases h6 : a.course.course_type = "lab" → a.room.room_type = "lab"
            · exact absurd ((validate_ok_iff a L).2 ⟨h1, h2, h3, h4, h5, h6⟩)
                (by simp [h])
            · push_neg at h6
              have hlen : 1 ≤ (find_all_conflicts (L ++ [a])).room_type_issues.length := by
                rw [find_all_conflicts_room_type]
                exact length_filterMap_append_singleton _ L a _
                  (by rw [if_pos (by simp [h6.1, h6.2])])
              unfold count_conflicts
              omega
          · simp only [Bool.not_eq_true] at h5
            have hlen : 1 ≤ (find_all_conflicts (L ++ [a])).availability_issues.length := by
              rw [find_all_conflicts_availability]
              exact length_filterMap_append_singleton _ L a _ (by rw [if_pos h5])
            unfold count_conflicts
            omega
        · have h4' : a.room.capacity < a.sec.student_count := Nat.lt_of_not_le (by omega)
          have hlen : 1 ≤ (find_all_conflicts (L ++ [a])).capacity_issues.length := by
            rw [find_all_conflicts_capacity]
            exact length_filterMap_append_singleton _ L a _ (by rw [if_pos h4'])
          unfold count_conflicts
          omega
      · push_neg at h3
        obtain ⟨e, he, hc⟩ := h3
        rw [Bool.ne_false_iff] at hc
        have hlen : 1 ≤ (find_all_conflicts (L ++ [a])).section_conflicts.length := by
          rw [find_all_conflicts_section]
          exact trackList_flags_dup _ _ L a ⟨e, he, (sectionClash_iff a e).1 hc⟩
        unfold count_conflicts
        omega
    · push_neg at h2
      obtain ⟨e, he, hc⟩ := h2
      rw [Bool.ne_false_iff] at hc
      have hlen : 1 ≤ (find_all_conflicts (L ++ [a])).room_conflicts.length := by
        rw [find_all_conflicts_room]
        exact trackList_flags_dup _ _ L a ⟨e, he, (roomClash_iff a e).1 hc⟩
      unfold count_conflicts
      omega
  · push_neg at h1
    obtain ⟨e, he, hc⟩ := h1
    rw [Bool.ne_false_iff] at hc
    have hlen : 1 ≤ (find_all_conflicts (L ++ [a])).teacher_conflicts.length := by
      rw [find_all_conflicts_teacher]
      exact trackList_flags_dup _ _ L a ⟨e, he, (teacherClash_iff a e).1 hc⟩
    unfold count_conflicts
    omega

/-- A list built through the validator is clean for the detector. -/
theorem built_list_no_conflicts (L : List ClassAssignment) (h : ValidBuilt L) :
    count_conflicts (find_all_conflicts L) = 0 := by
  have hgood : Good L := by
    induction h with
    | nil => exact ⟨List.Pairwise.nil, by simp⟩
    | snoc _ hv ih => exact Good_snoc ih hv
  obtain ⟨hpw, hok⟩ := hgood
  have hokx : ∀ a ∈ L, a.sec.student_count ≤ a.room.capacity ∧
      a.teacher.is_available a.time_slot = true ∧
      (a.course.course_type = "lab" → a.room.room_type = "lab") := by
    intro a ha
    have := hok a ha
    simp only [assignmentOk, Bool.and_eq_true, decide_eq_true_eq, Bool.or_eq_true,
      bne_iff_ne, ne_eq, beq_iff_eq] at this
    obtain ⟨⟨ha1, ha2⟩, ha3⟩ := this
    exact ⟨ha1, ha2, fun hl => by rcases ha3 with hh | hh
                                  · exact absurd hl hh
                                  · exact hh⟩
  have hdist : ∀ (key : ClassAssignment → String × String × Nat),
      (∀ x y : ClassAssignment, noPairConflict x y = true → key x ≠ key y) →
      L.Pairwise (fun x y => key x ≠ key y) :=
    fun key himp => hpw.imp (fun hxy => himp _ _ hxy)
  have ht : (find_all_conflicts L).teacher_conflicts = [] := by
    rw [find_all_conflicts_teacher]
    refine trackList_no_dup _ _ L [] [] (hdist teacherKey ?_) (fun a _ => rfl)
    intro x y hxy hk
    rw [teacherKey_eq_iff] at hk
    simp only [noPairConflict, Bool.and_eq_true, Bool.not_eq_true',
      Bool.and_eq_false_iff] at hxy
    rcases hxy with ⟨⟨hT, _⟩, _⟩
    rcases hT with h' | h' <;> simp_all
  have hr : (find_all_conflicts L).room_conflicts = [] := by
    rw [find_all_conflicts_room]
    refine trackList_no_dup _ _ L [] [] (hdist roomKey ?_) (fun a _ => rfl)
    intro x y hxy hk
    rw [roomKey_eq_iff] at hk
    simp only [noPairConflict, Bool.and_eq_true, Bool.not_eq_true',
      Bool.and_eq_false_iff] at hxy
    rcases hxy with ⟨⟨_, hR⟩, _⟩
    rcases hR with h' | h' <;> simp_all
  have hs : (find_all_conflicts L).section_conflicts = [] := by
    rw [find_all_conflicts_section]
    refine trackList_no_dup _ _ L [] [] (hdist sectionKey ?_) (fun a _ => rfl)
    intro x y hxy hk
    rw [sectionKey_eq_iff] at hk
    simp only [noPairConflict, Bool.and_eq_true, Bool.not_eq_true',
      Bool.and_eq_false_iff] at hxy
    rcases hxy with ⟨⟨_, _⟩, hS⟩
    rcases hS with h' | h' <;> simp_all
  have hc : (find_all_conflicts L).capacity_issues = [] := by
    rw [find_all_conflicts_capacity, List.filterMap_eq_nil_iff]
    intro a ha
    have h1 := (hokx a ha).1
    rw [if_neg (by omega)]
  have hav : (find_all_conflicts L).availability_issues = [] := by
    rw [find_all_conflicts_availability, List.filterMap_eq_nil_iff]
    intro a ha
    have h2 := (hokx a ha).2.1
    rw [if_neg (by simp [h2])]
  have hrt : (find_all_conflicts L).room_type_issues = [] := by
    rw [find_all_conflicts_room_type, List.filterMap_eq_nil_iff]
    intro a ha
    rw [if_neg]
    simp only [Bool.and_eq_true, beq_iff_eq, bne_iff_ne, ne_eq, not_and]
    intro hlab
    simp [(hokx a ha).2.2 hlab]
  unfold count_conflicts
  rw [ht, hr, hs, hc, hav, hrt]
  rfl

/-- C4: the validator and the independent conflict detector never
disagree on feasibility — a candidate the validator rejects makes the
detector's conflict count positive on the extended list, and a list
built by appending only validator-accepted candidates audits clean. -/
theorem validator_conflict_detector_agree :
    (∀ (a : ClassAssignment) (L : List ClassAssignment),
      (validate_assignment a L).1 = false →
      0 < count_conflicts (find_all_conflicts (L ++ [a]))) ∧
    (∀ L : List ClassAssignment, ValidBuilt L →
      count_conflicts (find_all_conflicts L) = 0) :=
  ⟨validator_reject_detector_flags, built_list_no_conflicts⟩

/-- C4 witness: a concrete rejected candidate (capacity violation) is
flagged by the detector, and the empty built list audits clean. -/
theorem validator_conflict_detector_agree_witness :
    (validate_assignment demoSmallAssign []).1 = false ∧
    0 < count_conflicts (find_all_conflicts ([] ++ [demoSmallAssign])) ∧
    count_conflicts (find_all_conflicts []) = 0 :=
  ⟨by decide,
   validator_conflict_detector_agree.1 demoSmallAssign [] (by decide),
   validator_conflict_detector_agree.2 [] ValidBuilt.nil⟩

/-- C10: `find_all_conflicts` records, per double-booking category,
one conflict entry for every assignment landing on an
already-occupied (resource, slot) pair: when exactly `k ≥ 1`
assignments share a (teacher, slot) key and every other key is
unduplicated, exactly `k - 1` teacher-conflict entries are reported
(and likewise for rooms and sections); on a run of assignments
sharing one key the entries are built from each assignment and the
occupant most recently stored for the pair, carrying both course
names. -/
theorem find_all_conflicts_duplicate_counting :
    (∀ (L : List ClassAssignment) (K : String × String × Nat),
      (∀ x ∈ L, teacherKey x ≠ K → (L.map teacherKey).count (teacherKey x) = 1) →
      1 ≤ (L.map teacherKey).count K →
      (find_all_conflicts L).teacher_conflicts.length
        = (L.map teacherKey).count K - 1) ∧
    (∀ (L : List ClassAssignment) (K : String × String × Nat),
      (∀ x ∈ L, roomKey x ≠ K → (L.map roomKey).count (roomKey x) = 1) →
      1 ≤ (L.map roomKey).count K →
      (find_all_conflicts L).room_conflicts.length
        = (L.map roomKey).count K - 1) ∧
    (∀ (L : List ClassAssignment) (K : String × String × Nat),
      (∀ x ∈ L, sectionKey x ≠ K → (L.map sectionKey).count (sectionKey x) = 1) →
      1 ≤ (L.map sectionKey).count K →
      (find_all_conflicts L).section_conflicts.length
        = (L.map sectionKey).count K - 1) ∧
    (∀ (L : List ClassAssignment) (K : String × String × Nat),
      (∀ a ∈ L, teacherKey a = K) →
      (find_all_conflicts L).teacher_conflicts =
        (L.zip L.tail).map (fun p => mkTeacherEntry p.1 p.2)) ∧
    (∀ (L : List ClassAssignment) (K : String × String × Nat),
      (∀ a ∈ L, roomKey a = K) →
      (find_all_conflicts L).room_conflicts =
        (L.zip L.tail).map (fun p => mkRoomEntry p.1 p.2)) ∧
    (∀ (L : List ClassAssignment) (K : String × String × Nat),
      (∀ a ∈ L, sectionKey a = K) →
      (find_all_conflicts L).section_conflicts =
        (L.zip L.tail).map (fun p => mkSectionEntry p.1 p.2)) := by
  refine ⟨?_, ?_, ?_,
    fun L K hall => by
      rw [find_all_conflicts_teacher]
      exact trackList_same_key_closed teacherKey mkTeacherEntry K L hall,
    fun L K hall => by
      rw [find_all_conflicts_room]
      exact trackList_same_key_closed roomKey mkRoomEntry K L hall,
    fun L K hall => by
      rw [find_all_conflicts_section]
      exact trackList_same_key_closed sectionKey mkSectionEntry K L hall⟩
  · intro L K huniq hk
    have hcc := trackList_count teacherKey mkTeacherEntry K L [] []
      (fun x hx hne => ⟨rfl, huniq x hx hne⟩)
    rw [find_all_conflicts_teacher]
    rw [show (schedLookup ([] : Sched) K).isSome = false from rfl] at hcc
    simp only [Bool.false_eq_true, if_false, List.length_nil, Nat.zero_add] at hcc
    omega
  · intro L K huniq hk
    have hcc := trackList_count roomKey mkRoomEntry K L [] []
      (fun x hx hne => ⟨rfl, huniq x hx hne⟩)
    rw [find_all_conflicts_room]
    rw [show (schedLookup ([] : Sched) K).isSome = false from rfl] at hcc
    simp only [Bool.false_eq_true, if_false, List.length_nil, Nat.zero_add] at hcc
    omega
  · intro L K huniq hk
    have hcc := trackList_count sectionKey mkSectionEntry K L [] []
      (fun x hx hne => ⟨rfl, huniq x hx hne⟩)
    rw [find_all_conflicts_section]
    rw [show (schedLookup ([] : Sched) K).isSome = false from rfl] at hcc
    simp only [Bool.false_eq_true, if_false, List.length_nil, Nat.zero_add] at hcc
    omega

/-- C10 witness: three assignments sharing one (teacher, slot) — and
one (room, slot), one (section, slot) — produce exactly two conflict
entries in each category, each built from the previous occupant and
the current assignment. -/
theorem find_all_conflicts_duplicate_counting_witness :
    (find_all_conflicts [demoAssign, demoAssign, demoAssign]).teacher_conflicts.length
      = ([demoAssign, demoAssign, demoAssign].map teacherKey).count
          (teacherKey demoAssign) - 1 ∧
    (find_all_conflicts [demoAssign, demoAssign, demoAssign]).teacher_conflicts =
      ([demoAssign, demoAssign, demoAssign].zip
        [demoAssign, demoAssign, demoAssign].tail).map
          (fun p => mkTeacherEntry p.1 p.2) :=
  ⟨find_all_conflicts_duplicate_counting.1 [demoAssign, demoAssign, demoAssign]
      (teacherKey demoAssign) (by decide) (by decide),
   find_all_conflicts_duplicate_counting.2.2.2.1 [demoAssign, demoAssign, demoAssign]
      (teacherKey demoAssign) (by decide)⟩

/-! ## Candidate generation (C2) -/

theorem insortBy_perm {α : Type} (lt : α → α → Bool) (x : α) (l : List α) :
    (insortBy lt x l).Perm (x :: l) := by
  induction l with
  | nil => exact List.Perm.refl _
  | cons y ys ih =>
    simp only [insortBy]
    by_cases h : lt y x = true
    · simp only [h, if_true]
      exact (ih.cons y).trans (List.Perm.swap x y ys)
    · simp only [Bool.not_eq_true] at h
      simp only [h, Bool.false_eq_true, if_false]
      exact List.Perm.refl _

theorem sortByKey_perm {α : Type} (lt : α → α → Bool) (l : List α) :
    (sortByKey lt l).Perm l := by
  induction l with
  | nil => exact List.Perm.refl _
  | cons x xs ih =>
    simp only [sortByKey, List.foldr_cons]
    exact (insortBy_perm lt x _).trans (ih.cons x)

/-- The boolean filter of `_filter_suitable_rooms` is `suitableRoom`. -/
theorem suitable_filter_eq (course : Course) (s : Section) (rooms : List Room) :
    rooms.filter (fun room =>
        ! (room.capacity < s.student_count) &&
        ! (course.course_type == "lab" && room.room_type != "lab"))
      = rooms.filter (suitableRoom course s) := by
  apply List.filter_congr
  intro room _
  rw [Bool.eq_iff_iff]
  simp only [suitableRoom, Bool.and_eq_true, Bool.not_eq_true', Bool.and_eq_false_iff,
    decide_eq_true_eq, decide_eq_false_iff_not, Bool.or_eq_true, bne_iff_ne, ne_eq,
    beq_iff_eq, beq_eq_false_iff_ne, bne_eq_false_iff_eq, Nat.not_lt]

theorem filter_suitable_rooms_perm (course : Course) (s : Section) (rooms : List Room) :
    (filter_suitable_rooms course s rooms).Perm
      (rooms.filter (suitableRoom course s)) := by
  unfold filter_suitable_rooms
  rw [suitable_filter_eq]
  exact sortByKey_perm _ _

/-- C2 (amended): the candidate list is a permutation of the cross
product of the rooms passing the one-directional filter (capacity
sufficient, and lab courses restricted to lab rooms) with the slots at
which the teacher is available; consequently a lab course never gets a
non-lab room — but a non-lab course may get a lab room, which is what
the original claim's "if and only if" filter wrongly excluded. -/
theorem get_possible_assignments_perm {σ : Type}
    (shuffle : σ → List ClassAssignment → List ClassAssignment × σ)
    (hshuffle : ∀ (r : σ) (l : List ClassAssignment), ((shuffle r l).1).Perm l)
    (req : ScheduleRequest) (rooms : List Room) (all_slots : List TimeSlot) (rng : σ) :
    ((get_possible_assignments shuffle req rooms all_slots rng).1).Perm
      ((rooms.filter (suitableRoom req.course req.sec)).flatMap (fun room =>
        (all_slots.filter (fun slot => req.teacher.is_available slot)).map
          (fun slot => ⟨req.course, req.sec, req.teacher, room, slot⟩))) ∧
    (∀ a ∈ (get_possible_assignments shuffle req rooms all_slots rng).1,
      suitableRoom req.course req.sec a.room = true ∧
      req.teacher.is_available a.time_slot = true ∧
      (req.course.course_type = "lab" → a.room.room_type = "lab")) := by
  have hperm : ((get_possible_assignments shuffle req rooms all_slots rng).1).Perm
      ((rooms.filter (suitableRoom req.course req.sec)).flatMap (fun room =>
        (all_slots.filter (fun slot => req.teacher.is_available slot)).map
          (fun slot => ⟨req.course, req.sec, req.teacher, room, slot⟩))) := by
    unfold get_possible_assignments filter_available_slots
    refine (hshuffle rng _).trans ?_
    exact (filter_suitable_rooms_perm req.course req.sec rooms).flatMap_right _
  refine ⟨hperm, ?_⟩
  intro a ha
  have hmem := hperm.subset ha
  rw [List.mem_flatMap] at hmem
  obtain ⟨room, hroom, hmem2⟩ := hmem
  rw [List.mem_map] at hmem2
  obtain ⟨slot, hslot, rfl⟩ := hmem2
  have hsr : suitableRoom req.course req.sec room = true := List.of_mem_filter hroom
  have hav : req.teacher.is_available slot = true := List.of_mem_filter hslot
  refine ⟨hsr, hav, ?_⟩
  intro hlab
  simp only [suitableRoom, Bool.and_eq_true, Bool.or_eq_true, bne_iff_ne, ne_eq,
    beq_iff_eq] at hsr
  rcases hsr.2 with h | h
  · exact absurd hlab h
  · exact h

/-- C2 counterexample: for the theory course `demoCourse` the lab room
`demoLabRoom` *is* offered as a candidate, so the claim's "a room of
type lab is never a candidate for a non-lab course" is false on the
code. -/
theorem lab_room_candidate_for_theory_course :
    (get_possible_assignments idShuffle demoReq [demoLabRoom] [demoSlot] ()).1
      = [demoLabAssign] ∧
    demoLabAssign.room.room_type = "lab" ∧
    demoReq.course.course_type = "theory" := by
  refine ⟨by decide, rfl, rfl⟩

/-- C2 witness: the amended permutation statement evaluated at a
concrete request, room pool and slot pool. -/
theorem get_possible_assignments_perm_witness :
    ((get_possible_assignments idShuffle demoReq [demoLabRoom, demoSmallRoom]
        [demoSlot] ()).1).Perm
      (([demoLabRoom, demoSmallRoom].filter
          (suitableRoom demoReq.course demoReq.sec)).flatMap (fun room =>
        ([demoSlot].filter (fun slot => demoReq.teacher.is_available slot)).map
          (fun slot => ⟨demoReq.course, demoReq.sec, demoReq.teacher, room, slot⟩))) :=
  (get_possible_assignments_perm idShuffle (fun _ l => List.Perm.refl l) demoReq
    [demoLabRoom, demoSmallRoom] [demoSlot] ()).1

/-! ## Request building (C5) -/

theorem getLast?_mem {α : Type} {l : List α} {x : α} (h : l.getLast? = some x) :
    x ∈ l := by
  obtain ⟨hne, hx⟩ := List.mem_getLast?_eq_getLast (Option.mem_def.mpr h)
  rw [hx]
  exact List.getLast_mem hne

theorem lookupById_spec {α : Type} (key : α → String) (xs : List α) (id : String)
    (x : α) (h : lookupById key xs id = some x) : x ∈ xs ∧ key x = id := by
  unfold lookupById lookupLast at h
  have hmem := getLast?_mem h
  refine ⟨List.mem_of_mem_filter hmem, ?_⟩
  have := List.of_mem_filter hmem
  simpa using this

theorem resolve_entry_spec (courses : List Course) (sections : List Section)
    (teachers : List Teacher) (e : (String × String) × String)
    (c : Course) (s : Section) (t : Teacher)
    (h : resolve_entry courses sections teachers e = some (c, s, t)) :
    lookupById Course.course_id courses e.1.1 = some c ∧
    lookupById Section.section_id sections e.1.2 = some s ∧
    lookupById Teacher.teacher_id teachers e.2 = some t := by
  unfold resolve_entry at h
  cases h1 : lookupById Course.course_id courses e.1.1 with
  | none => rw [h1] at h; cases h
  | some c' =>
    rw [h1] at h
    cases h2 : lookupById Section.section_id sections e.1.2 with
    | none => rw [h2] at h; cases h
    | some s' =>
      rw [h2] at h
      cases h3 : lookupById Teacher.teacher_id teachers e.2 with
      | none => rw [h3] at h; cases h
      | some t' =>
        rw [h3] at h
        have heq := Option.some.inj h
        rw [Prod.ext_iff] at heq
        obtain ⟨e1, heq2⟩ := heq
        rw [Prod.ext_iff] at heq2
        obtain ⟨e2, e3⟩ := heq2
        dsimp only at e1 e2 e3
        subst e1
        subst e2
        subst e3
        exact ⟨rfl, rfl, rfl⟩

theorem foldl_accumulates {α β γ : Type} (f : (List β × List γ) → α → (List β × List γ))
    (r : α → List β) (w : α → List γ)
    (hf : ∀ acc e, f acc e = (acc.1 ++ r e, acc.2 ++ w e)) :
    ∀ (l : List α) (acc : List β × List γ),
      l.foldl f acc = (acc.1 ++ l.flatMap r, acc.2 ++ l.flatMap w) := by
  intro l
  induction l with
  | nil => intro acc; simp
  | cons e rest ih =>
    intro acc
    rw [List.foldl_cons, hf, ih]
    simp [List.flatMap_cons, List.append_assoc]

/-- Compositional form of `_build_scheduling_requests`: each mapping
entry contributes its requests (or nothing plus a warning) in order. -/
theorem build_scheduling_requests_eq (courses : List Course) (sections : List Section)
    (teachers : List Teacher) (mapping : List ((String × String) × String)) :
    build_scheduling_requests courses sections teachers mapping =
      (mapping.flatMap (entry_requests courses sections teachers),
        mapping.flatMap (entry_warnings courses sections teachers)) := by
  have h := foldl_accumulates
    (fun acc entry =>
      match lookupById Course.course_id courses entry.1.1 with
      | none => (acc.1, acc.2 ++ ["Warning: Course " ++ entry.1.1 ++ " not found"])
      | some course =>
        match lookupById Section.section_id sections entry.1.2 with
        | none => (acc.1, acc.2 ++ ["Warning: Section " ++ entry.1.2 ++ " not found"])
        | some s =>
          match lookupById Teacher.teacher_id teachers entry.2 with
          | none => (acc.1, acc.2 ++ ["Warning: Teacher " ++ entry.2 ++ " not found"])
          | some teacher =>
            (acc.1 ++ (List.range course.hours_per_week).map
              (fun i => ⟨course, s, teacher, i + 1⟩), acc.2))
    (entry_requests courses sections teachers)
    (entry_warnings courses sections teachers)
    (by
      intro acc e
      unfold entry_requests entry_warnings resolve_entry
      cases h1 : lookupById Course.course_id courses e.1.1 with
      | none => simp [h1]
      | some c =>
        cases h2 : lookupById Section.section_id sections e.1.2 with
        | none => simp [h1, h2]
        | some s =>
          cases h3 : lookupById Teacher.teacher_id teachers e.2 with
          | none => simp [h1, h2, h3]
          | some t => simp [h1, h2, h3])
    mapping ([], [])
  simpa [build_scheduling_requests] using h

/-- Everything a request remembers about the entry it came from. -/
theorem mem_entry_requests {courses : List Course} {sections : List Section}
    {teachers : List Teacher} {e : (String × String) × String} {r : ScheduleRequest}
    (hr : r ∈ entry_requests courses sections teachers e) :
    ∃ c s t, resolve_entry courses sections teachers e = some (c, s, t) ∧
      r.course = c ∧ r.sec = s ∧ r.teacher = t := by
  unfold entry_requests at hr
  cases hres : resolve_entry courses sections teachers e with
  | none => rw [hres] at hr; cases hr
  | some cst =>
    obtain ⟨c, s, t⟩ := cst
    rw [hres] at hr
    rw [List.mem_map] at hr
    obtain ⟨i, _, rfl⟩ := hr
    exact ⟨c, s, t, rfl, rfl, rfl, rfl⟩

/-- The value of `entry_requests` on a resolving entry. -/
theorem entry_requests_resolved {courses : List Course} {sections : List Section}
    {teachers : List Teacher} {e : (String × String) × String}
    {c : Course} {s : Section} {t : Teacher}
    (h : resolve_entry courses sections teachers e = some (c, s, t)) :
    entry_requests courses sections teachers e =
      (List.range c.hours_per_week).map (fun i => ⟨c, s, t, i + 1⟩) := by
  unfold entry_requests
  rw [h]

/-- C5: for every mapping entry whose three ids resolve, request
building produces exactly `hours_per_week` requests for that (course,
section, teacher) triple, instances `1..hours_per_week`; an entry with
an unresolvable id contributes no requests but a warning, and the
remaining entries are unaffected. -/
theorem build_scheduling_requests_spec :
    (∀ (courses : List Course) (sections : List Section) (teachers : List Teacher)
      (mapping : List ((String × String) × String)) (cid sid tid : String)
      (c : Course) (s : Section) (t : Teacher),
      (mapping.map Prod.fst).Nodup →
      ((cid, sid), tid) ∈ mapping →
      resolve_entry courses sections teachers ((cid, sid), tid) = some (c, s, t) →
      (build_scheduling_requests courses sections teachers mapping).1.filter
          (fun r => r.course.course_id == cid && r.sec.section_id == sid)
        = (List.range c.hours_per_week).map (fun i => ⟨c, s, t, i + 1⟩)) ∧
    (∀ (courses : List Course) (sections : List Section) (teachers : List Teacher)
      (mapping : List ((String × String) × String)) (cid sid tid : String),
      ((cid, sid), tid) ∈ mapping →
      lookupById Course.course_id courses cid = none →
      (∀ r ∈ (build_scheduling_requests courses sections teachers mapping).1,
        r.course.course_id ≠ cid) ∧
      ("Warning: Course " ++ cid ++ " not found")
        ∈ (build_scheduling_requests courses sections teachers mapping).2) ∧
    (∀ (courses : List Course) (sections : List Section) (teachers : List Teacher)
      (mapping : List ((String × String) × String)) (cid sid tid : String)
      (c : Course),
      ((cid, sid), tid) ∈ mapping →
      lookupById Course.course_id courses cid = some c →
      lookupById Section.section_id sections sid = none →
      (∀ r ∈ (build_scheduling_requests courses sections teachers mapping).1,
        r.sec.section_id ≠ sid) ∧
      ("Warning: Section " ++ sid ++ " not found")
        ∈ (build_scheduling_requests courses sections teachers mapping).2) ∧
    (∀ (courses : List Course) (sections : List Section) (teachers : List Teacher)
      (mapping : List ((String × String) × String)) (cid sid tid : String)
      (c : Course) (s : Section),
      ((cid, sid), tid) ∈ mapping →
      lookupById Course.course_id courses cid = some c →
      lookupById Section.section_id sections sid = some s →
      lookupById Teacher.teacher_id teachers tid = none →
      (∀ r ∈ (build_scheduling_requests courses sections teachers mapping).1,
        r.teacher.teacher_id ≠ tid) ∧
      ("Warning: Teacher " ++ tid ++ " not found")
        ∈ (build_scheduling_requests courses sections teachers mapping).2) := by
  refine ⟨?_, ?_, ?_, ?_⟩
  · intro courses sections teachers mapping cid sid tid c s t hnodup hmem hres
    rw [build_scheduling_requests_eq]
    obtain ⟨hc, hs, _⟩ := resolve_entry_spec courses sections teachers _ c s t hres
    have hcid : c.course_id = cid := (lookupById_spec _ _ _ _ hc).2
    have hsid : s.section_id = sid := (lookupById_spec _ _ _ _ hs).2
    induction mapping with
    | nil => cases hmem
    | cons e rest ih =>
      rw [List.map_cons, List.nodup_cons] at hnodup
      rw [List.flatMap_cons, List.filter_append]
      rcases List.mem_cons.1 hmem with rfl | hmem'
      · have hfirst : (entry_requests courses sections teachers ((cid, sid), tid)).filter
            (fun r => r.course.course_id == cid && r.sec.section_id == sid)
            = (List.range c.hours_per_week).map (fun i => ⟨c, s, t, i + 1⟩) := by
          rw [entry_requests_resolved hres]
          apply List.filter_eq_self.2
          intro r hr
          rw [List.mem_map] at hr
          obtain ⟨i, _, rfl⟩ := hr
          simp [hcid, hsid]
        have hrest : (rest.flatMap (entry_requests courses sections teachers)).filter
            (fun r => r.course.course_id == cid && r.sec.section_id == sid) = [] := by
          apply List.filter_eq_nil_iff.2
          intro r hr
          rw [List.mem_flatMap] at hr
          obtain ⟨e', he', hre'⟩ := hr
          obtain ⟨c', s', t', hres', hrc, hrs, _⟩ := mem_entry_requests hre'
          obtain ⟨hc', hs', _⟩ := resolve_entry_spec courses sections teachers _ c' s' t' hres'
          have hkey : e'.1 ≠ (cid, sid) := by
            intro hk
            exact hnodup.1 (hk ▸ List.mem_map.2 ⟨e', he', rfl⟩)
          simp only [Bool.and_eq_true, beq_iff_eq, not_and]
          intro h1 h2
          apply hkey
          have e1 : e'.1.1 = cid := by
            rw [← (lookupById_spec _ _ _ _ hc').2, ← hrc, h1]
          have e2 : e'.1.2 = sid := by
            rw [← (lookupById_spec _ _ _ _ hs').2, ← hrs, h2]
          exact Prod.ext e1 e2
        rw [hfirst, hrest, List.append_nil]
      · have hkey : e.1 ≠ (cid, sid) := by
          intro hk
          exact hnodup.1 (hk ▸ List.mem_map.2 ⟨((cid, sid), tid), hmem', rfl⟩)
        have hfirst : (entry_requests courses sections teachers e).filter
            (fun r => r.course.course_id == cid && r.sec.section_id == sid) = [] := by
          apply List.filter_eq_nil_iff.2
          intro r hr
          obtain ⟨c', s', t', hres', hrc, hrs, _⟩ := mem_entry_requests hr
          obtain ⟨hc', hs', _⟩ := resolve_entry_spec courses sections teachers _ c' s' t' hres'
          simp only [Bool.and_eq_true, beq_iff_eq, not_and]
          intro h1 h2
          apply hkey
          have e1 : e.1.1 = cid := by
            rw [← (lookupById_spec _ _ _ _ hc').2, ← hrc, h1]
          have e2 : e.1.2 = sid := by
            rw [← (lookupById_spec _ _ _ _ hs').2, ← hrs, h2]
          exact Prod.ext e1 e2
        rw [hfirst, List.nil_append]
        exact ih hnodup.2 hmem'
  · intro courses sections teachers mapping cid sid tid hmem hnone
    rw [build_scheduling_requests_eq]
    constructor
    · intro r hr hrc
      rw [List.mem_flatMap] at hr
      obtain ⟨e', he', hre'⟩ := hr
      obtain ⟨c', s', t', hres', hrc', _, _⟩ := mem_entry_requests hre'
      obtain ⟨hc', _, _⟩ := resolve_entry_spec courses sections teachers _ c' s' t' hres'
      have : e'.1.1 = cid := by
        rw [← (lookupById_spec _ _ _ _ hc').2, ← hrc', hrc]
      rw [this] at hc'
      rw [hnone] at hc'
      cases hc'
    · rw [List.mem_flatMap]
      refine ⟨((cid, sid), tid), hmem, ?_⟩
      unfold entry_warnings
      rw [hnone]
      simp
  · intro courses sections teachers mapping cid sid tid c hmem hc hnone
    rw [build_scheduling_requests_eq]
    constructor
    · intro r hr hrs
      rw [List.mem_flatMap] at hr
      obtain ⟨e', he', hre'⟩ := hr
      obtain ⟨c', s', t', hres', _, hrs', _⟩ := mem_entry_requests hre'
      obtain ⟨_, hs', _⟩ := resolve_entry_spec courses sections teachers _ c' s' t' hres'
      have : e'.1.2 = sid := by
        rw [← (lookupById_spec _ _ _ _ hs').2, ← hrs', hrs]
      rw [this] at hs'
      rw [hnone] at hs'
      cases hs'
    · rw [List.mem_flatMap]
      refine ⟨((cid, sid), tid), hmem, ?_⟩
      unfold entry_warnings
      rw [hc, hnone]
      simp
  · intro courses sections teachers mapping cid sid tid c s hmem hc hs hnone
    rw [build_scheduling_requests_eq]
    constructor
    · intro r hr hrt
      rw [List.mem_flatMap] at hr
      obtain ⟨e', he', hre'⟩ := hr
      obtain ⟨c', s', t', hres', _, _, hrt'⟩ := mem_entry_requests hre'
      obtain ⟨_, _, ht'⟩ := resolve_entry_spec courses sections teachers _ c' s' t' hres'
      have : e'.2 = tid := by
        rw [← (lookupById_spec _ _ _ _ ht').2, ← hrt', hrt]
      rw [this] at ht'
      rw [hnone] at ht'
      cases ht'
    · rw [List.mem_flatMap]
      refine ⟨((cid, sid), tid), hmem, ?_⟩
      unfold entry_warnings
      rw [hc, hs, hnone]
      simp

/-- C5 witness: the resolved demonstration entry yields exactly one
request (hours_per_week = 1) with instance 1, and an unknown course,
section or teacher id each yields its warning and no requests. -/
theorem build_scheduling_requests_spec_witness :
    (build_scheduling_requests [demoCourse] [demoSection] [demoTeacher]
        demoMapping).1.filter
        (fun r => r.course.course_id == "C1" && r.sec.section_id == "S1")
      = (List.range demoCourse.hours_per_week).map
          (fun i => ⟨demoCourse, demoSection, demoTeacher, i + 1⟩) ∧
    ("Warning: Course CX not found")
      ∈ (build_scheduling_requests [demoCourse] [demoSection] [demoTeacher]
          [(("CX", "S1"), "T1")]).2 ∧
    ("Warning: Section SX not found")
      ∈ (build_scheduling_requests [demoCourse] [demoSection] [demoTeacher]
          [(("C1", "SX"), "T1")]).2 ∧
    ("Warning: Teacher TX not found")
      ∈ (build_scheduling_requests [demoCourse] [demoSection] [demoTeacher]
          [(("C1", "S1"), "TX")]).2 :=
  ⟨build_scheduling_requests_spec.1 [demoCourse] [demoSection] [demoTeacher]
      demoMapping "C1" "S1" "T1" demoCourse demoSection demoTeacher
      (by decide) (by decide) (by decide),
   (build_scheduling_requests_spec.2.1 [demoCourse] [demoSection] [demoTeacher]
      [(("CX", "S1"), "T1")] "CX" "S1" "T1" (by decide) (by decide)).2,
   (build_scheduling_requests_spec.2.2.1 [demoCourse] [demoSection] [demoTeacher]
      [(("C1", "SX"), "T1")] "C1" "SX" "T1" demoCourse
      (by decide) (by decide) (by decide)).2,
   (build_scheduling_requests_spec.2.2.2 [demoCourse] [demoSection] [demoTeacher]
      [(("C1", "S1"), "TX")] "C1" "S1" "TX" demoCourse demoSection
      (by decide) (by decide) (by decide) (by decide)).2⟩

/-! ## Exhaustion with no usable room (C7) -/

/-- C7: if at least one scheduling request is built and every room is
smaller than every section, `generate` fails (returns the no-solution
result, not a crash), with zero committed assignments and an attempts
count of exactly 1 — only the first request index is ever visited. -/
theorem exhaustion_zero_usable_rooms {σ : Type}
    (shuffle : σ → List ClassAssignment → List ClassAssignment × σ)
    (hshuffle : ∀ (r : σ) (l : List ClassAssignment), ((shuffle r l).1).Perm l)
    (config : TimetableConfig) (courses : List Course) (sections : List Section)
    (teachers : List Teacher) (rooms : List Room)
    (mapping : List ((String × String) × String)) (rng : σ)
    (hreq : (build_scheduling_requests courses sections teachers mapping).1 ≠ [])
    (hsmall : ∀ room ∈ rooms, ∀ s ∈ sections, room.capacity < s.student_count) :
    (generate shuffle config courses sections teachers rooms mapping rng).1 = none ∧
    (generate shuffle config courses sections teachers rooms mapping rng).2.assignments
      = [] ∧
    (generate shuffle config courses sections teachers rooms mapping rng).2.attempts
      = 1 := by
  have hpperm := sortByKey_perm priorityLt
    (build_scheduling_requests courses sections teachers mapping).1
  have hreq' : prioritize_requests
      (build_scheduling_requests courses sections teachers mapping).1 ≠ [] := by
    intro hnil
    unfold prioritize_requests at hnil
    rw [hnil] at hpperm
    exact hreq hpperm.symm.eq_nil
  obtain ⟨r, rest, hcons⟩ := List.exists_cons_of_ne_nil hreq'
  have hrmem : r ∈ (build_scheduling_requests courses sections teachers mapping).1 := by
    have hr0 : r ∈ prioritize_requests
        (build_scheduling_requests courses sections teachers mapping).1 := by
      rw [hcons]
      simp
    unfold prioritize_requests at hr0
    exact hpperm.subset hr0
  have hsec : r.sec ∈ sections := by
    rw [build_scheduling_requests_eq] at hrmem
    rw [List.mem_flatMap] at hrmem
    obtain ⟨e', _, hre'⟩ := hrmem
    obtain ⟨c', s', t', hres', _, hrs, _⟩ := mem_entry_requests hre'
    obtain ⟨_, hs', _⟩ := resolve_entry_spec courses sections teachers _ c' s' t' hres'
    rw [hrs]
    exact (lookupById_spec _ _ _ _ hs').1
  have hcand : ∀ rng' : σ,
      (get_possible_assignments shuffle r rooms (get_all_time_slots config) rng').1
        = [] := by
    intro rng'
    have hfil : filter_suitable_rooms r.course r.sec rooms = [] := by
      unfold filter_suitable_rooms
      have hnilf : rooms.filter (fun room =>
          ! (room.capacity < r.sec.student_count) &&
          ! (r.course.course_type == "lab" && room.room_type != "lab")) = [] := by
        apply List.filter_eq_nil_iff.2
        intro room hroom
        simp [hsmall room hroom r.sec hsec]
      rw [hnilf]
      rfl
    unfold get_possible_assignments
    rw [hfil]
    simp only [List.flatMap_nil]
    exact (hshuffle rng' []).eq_nil
  simp only [generate, schedule_requests]
  rw [hcons]
  simp only [backtrack_schedule]
  rw [if_neg (show ¬ ((10000 : Nat) ≤ 0) by omega)]
  rw [hcand]
  simp only [try_candidates]
  simp

/-- C7 witness: the concrete failing run — one request, one room of
capacity 5 against a section of 10 — returns `None` with no
assignments and exactly one attempt. -/
theorem exhaustion_zero_usable_rooms_witness :
    (generate idShuffle demoCfg [demoCourse] [demoSection] [demoTeacher]
        [demoSmallRoom] demoMapping ()).1 = none ∧
    (generate idShuffle demoCfg [demoCourse] [demoSection] [demoTeacher]
        [demoSmallRoom] demoMapping ()).2.assignments = [] ∧
    (generate idShuffle demoCfg [demoCourse] [demoSection] [demoTeacher]
        [demoSmallRoom] demoMapping ()).2.attempts = 1 :=
  exhaustion_zero_usable_rooms idShuffle (fun _ l => List.Perm.refl l) demoCfg
    [demoCourse] [demoSection] [demoTeacher] [demoSmallRoom] demoMapping ()
    (by decide) (by decide)

/-! ## Seed handling (C9) -/

/-- C9 evidence: `main.py` guards the seeding with Python truthiness
(`if args.seed:`), so the documented seed `0` is silently never
applied — the run keeps depending on the ambient state of the global
`random` module, and two runs with identical inputs and the identical
explicit seed `0` can produce different assignment lists.  Any nonzero
seed pins the initial state, making the ambient state irrelevant. -/
theorem seed_zero_not_applied :
    applied_seed (some 0) = none ∧
    main_generate natShuffle (some 0) (fun _ => 0) 0 demoCfg2 [demoCourse]
        [demoSection] [demoTeacher] [demoRoom] demoMapping
      ≠ main_generate natShuffle (some 0) (fun _ => 0) 1 demoCfg2 [demoCourse]
        [demoSection] [demoTeacher] [demoRoom] demoMapping ∧
    main_generate natShuffle (some 5) (fun _ => 0) 0 demoCfg2 [demoCourse]
        [demoSection] [demoTeacher] [demoRoom] demoMapping
      = main_generate natShuffle (some 5) (fun _ => 0) 1 demoCfg2 [demoCourse]
        [demoSection] [demoTeacher] [demoRoom] demoMapping := by
  refine ⟨rfl, by decide, by decide⟩

end Timetable
